import Mathlib

/-!
# Speedster character: a verification development

A shallow embedding of `MySpeedsterCharacter.cpp` / `speedsterChar.h`.

Conventions of the embedding.

* `float` values are rationals (`ℚ`) and, with one exception, `float` arithmetic is exact;
  the literals `0.05f`, `0.1f`, `0.6f`, `1.2f` are `1/20`, `1/10`, `3/5`, `6/5`. Infinities
  and NaN are outside the model.
* The exception is the member `DistortionEffectElapsedTime`, which the timer callback
  advances by `0.01f`: the callback at which the sum reaches the duration depends on the
  rounding of each addition, so this member is a `Binary32` and the addition rounds to
  nearest, ties to even, as IEEE 754 single precision does. Its comparison with the duration
  is exact (as a `float` comparison is); the quotient handed to the curve is the exact
  quotient of the two `float` values.
* The members the class assigns only in its constructor (the designer-editable properties
  and asset references) are the record `Config`; the members the methods mutate, together
  with the mutated fields of the engine objects the class owns (movement component,
  Niagara components, the dynamic distortion material, the timer handle), are `State`.
* A pointer that the code dereferences and that may be null is an `Option`; a method that
  dereferences a null pointer returns `none`.
* What a method asks of the engine (trace results, velocity, screen projection, object
  creation) is an explicit argument of the method.
* Engine calls that only touch rendering or scene state (`RegisterComponent`,
  `SetSkeletalMesh`, `AttachToComponent`, `SetCollisionEnabled`, `DestroyComponent` on a
  record leaving the array, ...) change none of the modelled members and are left out.
  `Activate()` and `Deactivate()` of a component set and clear its active flag.
-/

namespace Speedster

/-! ## Engine value types -/

/-- Engine vector `FVector`, with rational coordinates. -/
structure FVector where
  X : ℚ
  Y : ℚ
  Z : ℚ
  deriving DecidableEq

namespace FVector

/-- Constant `FVector::UpVector`. -/
def UpVector : FVector := ⟨0, 0, 1⟩

/-- Function `FVector::DotProduct`. -/
def DotProduct (a b : FVector) : ℚ := a.X * b.X + a.Y * b.Y + a.Z * b.Z

/-- Function `FVector::CrossProduct`. -/
def CrossProduct (a b : FVector) : FVector :=
  ⟨a.Y * b.Z - a.Z * b.Y, a.Z * b.X - a.X * b.Z, a.X * b.Y - a.Y * b.X⟩

/-- Function `FVector::DistSquared`. -/
def DistSquared (a b : FVector) : ℚ :=
  (b.X - a.X) * (b.X - a.X) + (b.Y - a.Y) * (b.Y - a.Y) + (b.Z - a.Z) * (b.Z - a.Z)

/-- Unary minus of `FVector`. -/
def neg (a : FVector) : FVector := ⟨-a.X, -a.Y, -a.Z⟩

/-- Difference of two `FVector`s. -/
def sub (a b : FVector) : FVector := ⟨a.X - b.X, a.Y - b.Y, a.Z - b.Z⟩

end FVector

/-- Engine template `FMath::Clamp(X, Min, Max)`: `X < Min ? Min : X < Max ? X : Max`. -/
def FMath.Clamp (X MinV MaxV : ℚ) : ℚ :=
  if X < MinV then MinV else if X < MaxV then X else MaxV

/-- A finite non-negative `float` (IEEE 754 binary32), held as the number of units of
`2^-149` it is made of. `2^-149` is the smallest positive binary32 value and every finite
binary32 value is a whole number of such units: `m * 2^-149` for a subnormal with fraction
`m`, and `(2^23 + f) * 2^(E - 1) * 2^-149` for a normal value with fraction `f` and biased
exponent `E ≥ 1`. -/
structure Binary32 where
  units : Nat
  deriving DecidableEq

namespace Binary32

/-- The value of a `Binary32` as a rational number. -/
def toRat (x : Binary32) : ℚ := (x.units : ℚ) / 2 ^ 149

/-- The number of low-order bits of `n` that do not fit in a 24-bit significand: the least
`s` with `n / 2^s < 2^24`, found by halving at most `fuel` times (`fuel = n` is always
enough). -/
def dropBits : Nat → Nat → Nat
  | 0, _ => 0
  | fuel + 1, n => if n < 2 ^ 24 then 0 else dropBits fuel (n / 2) + 1

/-- Rounding of an exact value of `n` units to binary32, to nearest with ties to even. Below
`2^24` units every whole number of units is a binary32 value (the subnormals and the first
normal binade) and `n` is kept. Otherwise the 24 leading bits `q` are kept and the `s`
dropped bits `r` decide the direction: down when below half, up when above half, to the
even significand at exactly half. Overflow to infinity (beyond `FLT_MAX`) is not modelled. -/
def roundUnits (n : Nat) : Nat :=
  let s := dropBits n n
  let q := n / 2 ^ s
  let r := n % 2 ^ s
  if 2 * r < 2 ^ s then q * 2 ^ s
  else if 2 ^ s < 2 * r then (q + 1) * 2 ^ s
  else if q % 2 = 0 then q * 2 ^ s
  else (q + 1) * 2 ^ s

/-- The `float` sum `x + y`: the exact sum, rounded. -/
def add (x y : Binary32) : Binary32 := ⟨roundUnits (x.units + y.units)⟩

/-- Literal `0.0f`. -/
def zero : Binary32 := ⟨0⟩

/-- Literal `0.01f`: the binary32 value nearest to `1/100`, which is `10737418 * 2^-30`
(bit pattern `0x3C23D70A`). -/
def hundredth : Binary32 := ⟨10737418 * 2 ^ 119⟩

end Binary32

/-- Constant `FLT_MAX` of `<cfloat>`, the largest finite `float`: `(2 - 2^(-23)) * 2^127`. -/
def FLT_MAX : ℚ := 340282346638528859811704183484516925440

/-- Engine actor as far as `PerformAttack` reads it: identity, `Tags`, `GetActorLocation()`. -/
structure AActor where
  Id : Nat
  Tags : List String
  Location : FVector
  deriving DecidableEq

/-- Engine `FHitResult` as far as the class reads it: `GetActor()` (null is `none`) and
`Normal`. -/
structure FHitResult where
  Actor : Option AActor
  Normal : FVector
  deriving DecidableEq

/-- Scalar and vector parameters of a material that the class writes. -/
structure UMaterialInstanceDynamic where
  EffectCenter : ℚ × ℚ × ℚ × ℚ
  DistortionStrength : ℚ
  deriving DecidableEq

/-- Ghost mesh component created by `SpawnGhost`: the identity the engine allocator gave it
and the `GhostOpacity` parameter of the dynamic material in slot 0 (`none` when slot 0 holds
no dynamic material instance, i.e. the `Cast` in `UpdateGhostTrail` yields null). Each
component is referenced by exactly one ghost record, so the record holds it by value. -/
structure USkeletalMeshComponent where
  Id : Nat
  GhostOpacity : Option ℚ
  deriving DecidableEq

/-- Struct `FGhostTrailData` of `speedsterChar.h`. -/
structure FGhostTrailData where
  GhostMeshComponent : USkeletalMeshComponent
  ElapsedTime : ℚ
  deriving DecidableEq

/-- Entries written with `UE_LOG`. -/
inductive LogEntry where
  | GhostMaterialNotSet
  deriving DecidableEq

/-! ## The character class -/

/-- Members written only by the constructor: editable properties and asset references.
An asset pointer is `true`/`some _` when assigned and `false`/`none` when null. -/
structure Config where
  InitialSpeed : ℚ
  MaxSpeed : ℚ
  SpeedIncreaseRate : ℚ
  Acceleration : ℚ
  WallDetectionDistance : ℚ
  WallRunGravityScale : ℚ
  WallRunSpeedMultiplier : ℚ
  ZipSpeed : ℚ
  LightningTrailSystem : Bool
  LightningActivationSpeed : ℚ
  DistortionMaterial : Option UMaterialInstanceDynamic
  DistortionEffectDuration : ℚ
  DistortionIntensityCurve : Option (ℚ → ℚ)
  GhostMaterial : Bool
  MaxGhosts : ℤ
  GhostSpawnInterval : ℚ
  GhostLifetime : ℚ
  EffectActivationSpeed : ℚ
  SpeedAuraSystem : Bool

/-- Members the methods mutate, and the mutated fields of owned engine objects. -/
structure State where
  /-- Member `CurrentSpeed`. -/
  CurrentSpeed : ℚ
  /-- Member `bIsWallRunning`. -/
  bIsWallRunning : Bool
  /-- Field `GetCharacterMovement()->MaxWalkSpeed`. -/
  MaxWalkSpeed : ℚ
  /-- Field `GetCharacterMovement()->GravityScale`. -/
  GravityScale : ℚ
  /-- The X axis last handed to `SetActorRotation(MakeRotFromX(..))`. -/
  ActorRotationFromX : Option FVector
  /-- The calls of `AddMovementInput(direction, scale)` so far. -/
  MovementInput : List (FVector × ℚ)
  /-- Whether `LightningTrailComponent` has its asset set. -/
  LightningTrailAsset : Bool
  /-- Result of `LightningTrailComponent->IsActive()`. -/
  LightningTrailActive : Bool
  /-- Whether `SpeedAuraComponent` has its asset set. -/
  SpeedAuraAsset : Bool
  /-- Active flag of `SpeedAuraComponent`. -/
  SpeedAuraActive : Bool
  /-- Member `DynamicDistortionMaterial`; `none` is the null pointer. -/
  DynamicDistortionMaterial : Option UMaterialInstanceDynamic
  /-- Whether the distortion material was handed to `PostProcessComponent`. -/
  PostProcessBlendable : Bool
  /-- Whether the looping timer behind `DistortionEffectTimerHandle` is set. -/
  DistortionEffectTimerSet : Bool
  /-- Member `DistortionEffectElapsedTime`. -/
  DistortionEffectElapsedTime : Binary32
  /-- Member `bIsDistortionEffectActive`. -/
  bIsDistortionEffectActive : Bool
  /-- Member `GhostSpawnTimer`. -/
  GhostSpawnTimer : ℚ
  /-- Member `Ghosts`. -/
  Ghosts : List FGhostTrailData
  /-- Member `bGhostTrailActive`. -/
  bGhostTrailActive : Bool
  /-- Member `bEffectsActive`. -/
  bEffectsActive : Bool
  /-- Lines logged with `UE_LOG`. -/
  Log : List LogEntry
  /-- Engine object allocator: the identity the next `NewObject` hands out. Identities are
  handed out in allocation order. -/
  NextObjectId : Nat
  deriving DecidableEq

namespace AMySpeedsterCharacter

/-- The property values the constructor assigns; asset pointers start null. -/
def constructedConfig : Config where
  InitialSpeed := 600
  MaxSpeed := 2000
  SpeedIncreaseRate := 50
  Acceleration := 500
  WallDetectionDistance := 100
  WallRunGravityScale := 0
  WallRunSpeedMultiplier := 6 / 5
  ZipSpeed := 1500
  LightningTrailSystem := false
  LightningActivationSpeed := 1000
  DistortionMaterial := none
  DistortionEffectDuration := 1 / 2
  DistortionIntensityCurve := none
  GhostMaterial := false
  MaxGhosts := 12
  GhostSpawnInterval := 1 / 20
  GhostLifetime := 3 / 5
  EffectActivationSpeed := 800
  SpeedAuraSystem := false

/-- The state the constructor leaves: `CurrentSpeed = InitialSpeed = 600`, all flags false,
both Niagara components created with `SetAutoActivate(false)`, no ghosts, no timer; members
the constructor does not assign are zero/null and the movement component has the engine
defaults it is not given here (`GravityScale = 1`, `MaxWalkSpeed = 600`). -/
def constructedState : State where
  CurrentSpeed := 600
  bIsWallRunning := false
  MaxWalkSpeed := 600
  GravityScale := 1
  ActorRotationFromX := none
  MovementInput := []
  LightningTrailAsset := false
  LightningTrailActive := false
  SpeedAuraAsset := false
  SpeedAuraActive := false
  DynamicDistortionMaterial := none
  PostProcessBlendable := false
  DistortionEffectTimerSet := false
  DistortionEffectElapsedTime := Binary32.zero
  bIsDistortionEffectActive := false
  GhostSpawnTimer := 0
  Ghosts := []
  bGhostTrailActive := false
  bEffectsActive := false
  Log := []
  NextObjectId := 0

/-- Method `BeginPlay`. -/
def BeginPlay (cfg : Config) (s : State) : State :=
  let s := if cfg.LightningTrailSystem then { s with LightningTrailAsset := true } else s
  let s := if cfg.SpeedAuraSystem then { s with SpeedAuraAsset := true } else s
  let s := match cfg.DistortionMaterial with
    | some m => { s with DynamicDistortionMaterial := some m, PostProcessBlendable := true }
    | none => s
  let s := if !cfg.GhostMaterial then { s with Log := s.Log ++ [LogEntry.GhostMaterialNotSet] }
    else s
  { s with MaxWalkSpeed := cfg.InitialSpeed }

/-- Method `IncreaseSpeed`. -/
def IncreaseSpeed (cfg : Config) (DeltaTime : ℚ) (s : State) : State :=
  let CurrentSpeed := s.CurrentSpeed + cfg.SpeedIncreaseRate * DeltaTime
  let CurrentSpeed := FMath.Clamp CurrentSpeed cfg.InitialSpeed cfg.MaxSpeed
  { s with CurrentSpeed := CurrentSpeed, MaxWalkSpeed := CurrentSpeed }

/-- Method `StartWallRun`. -/
def StartWallRun (cfg : Config) (WallNormal : FVector) (s : State) : State :=
  let s := if !s.bIsWallRunning then
      { s with bIsWallRunning := true
               GravityScale := cfg.WallRunGravityScale
               ActorRotationFromX := some WallNormal.neg }
    else s
  let WallRunDirection := FVector.CrossProduct WallNormal FVector.UpVector
  { s with MovementInput := s.MovementInput ++ [(WallRunDirection, cfg.WallRunSpeedMultiplier)] }

/-- Method `StopWallRun`. -/
def StopWallRun (s : State) : State :=
  { s with bIsWallRunning := false, GravityScale := 1 }

/-- Method `CheckForWall`; `HitResult` is what `LineTraceSingleByChannel` returned
(`none` when it returned false). -/
def CheckForWall (cfg : Config) (HitResult : Option FHitResult) (s : State) : State :=
  match HitResult with
  | some hit =>
    let WallNormal := hit.Normal
    let WallAngle := FVector.DotProduct WallNormal FVector.UpVector
    if WallAngle < 1 / 10 then StartWallRun cfg WallNormal s else s
  | none => if s.bIsWallRunning then StopWallRun s else s

/-- What `PerformAttack` does to the world: `LaunchCharacter(Direction * ZipSpeed, true, true)`
with `Direction` the normalised `LaunchToward`, and `ApplyDamage(Damaged, Damage, ..)`. -/
structure AttackEffect where
  LaunchTarget : AActor
  LaunchToward : FVector
  LaunchSpeed : ℚ
  Damaged : AActor
  Damage : ℚ
  deriving DecidableEq

/-- One iteration of the `for` loop of `PerformAttack` on the pair
`(NearestEnemy, MinDistance)`; `Self` is `GetActorLocation()`. -/
def nearestEnemyStep (Self : FVector) (acc : Option AActor × ℚ) (Hit : FHitResult) :
    Option AActor × ℚ :=
  match Hit.Actor with
  | some HitActor =>
    if HitActor.Tags.contains "Enemy" then
      let Distance := FVector.DistSquared Self HitActor.Location
      if Distance < acc.2 then (some HitActor, Distance) else acc
    else acc
  | none => acc

/-- Method `PerformAttack`; `bHit` and `HitResults` are what `SweepMultiByChannel` returned,
`Self` is `GetActorLocation()`. The result is `none` when nothing is launched or damaged. -/
def PerformAttack (cfg : Config) (Self : FVector) (bHit : Bool) (HitResults : List FHitResult) :
    Option AttackEffect :=
  if bHit then
    let found := HitResults.foldl (nearestEnemyStep Self) (none, FLT_MAX)
    match found.1 with
    | some NearestEnemy =>
      some { LaunchTarget := NearestEnemy
             LaunchToward := FVector.sub NearestEnemy.Location Self
             LaunchSpeed := cfg.ZipSpeed
             Damaged := NearestEnemy
             Damage := 50 }
    | none => none
  else none

/-- What `StartDistortionEffect` reads when the controller is a player controller and
`ProjectWorldLocationToScreen` succeeds: the screen position and the viewport size. -/
structure ScreenProjection where
  ScreenX : ℚ
  ScreenY : ℚ
  ViewportX : ℤ
  ViewportY : ℤ
  deriving DecidableEq

/-- Method `StartDistortionEffect`; `proj` is `none` when there is no player controller or
the projection fails. -/
def StartDistortionEffect (proj : Option ScreenProjection) (s : State) : Option State :=
  if s.bIsDistortionEffectActive then some s
  else
    let s := { s with bIsDistortionEffectActive := true
                      DistortionEffectElapsedTime := Binary32.zero }
    let r : Option State :=
      match proj with
      | some p =>
        match s.DynamicDistortionMaterial with
        | some m =>
          let m := { m with
            EffectCenter := (p.ScreenX / p.ViewportX, p.ScreenY / p.ViewportY, 0, 0) }
          some { s with DynamicDistortionMaterial := some m }
        | none => none
      | none => some s
    r.map fun s => { s with DistortionEffectTimerSet := true }

/-- Method `UpdateDistortionEffect`, the callback of the looping timer. -/
def UpdateDistortionEffect (cfg : Config) (s : State) : Option State :=
  let ElapsedTime := Binary32.add s.DistortionEffectElapsedTime Binary32.hundredth
  let s := { s with DistortionEffectElapsedTime := ElapsedTime }
  if s.DistortionEffectElapsedTime.toRat ≥ cfg.DistortionEffectDuration then
    let s := { s with DistortionEffectTimerSet := false }
    match s.DynamicDistortionMaterial with
    | some m =>
      let m := { m with DistortionStrength := 0 }
      some { s with DynamicDistortionMaterial := some m, bIsDistortionEffectActive := false }
    | none => none
  else
    match cfg.DistortionIntensityCurve with
    | some curve =>
      let DistortionStrength :=
        curve (s.DistortionEffectElapsedTime.toRat / cfg.DistortionEffectDuration)
      match s.DynamicDistortionMaterial with
      | some m =>
        let m := { m with DistortionStrength := DistortionStrength }
        some { s with DynamicDistortionMaterial := some m }
      | none => none
    | none => none

/-- Engine timer manager: the callback runs only while the timer is set. -/
def fireDistortionTimer (cfg : Config) (s : State) : Option State :=
  if s.DistortionEffectTimerSet then UpdateDistortionEffect cfg s else some s

/-- The first `k` firings of the distortion timer, in order. -/
def distortionCallbacks (cfg : Config) : Nat → State → Option State
  | 0, s => some s
  | k + 1, s => (distortionCallbacks cfg k s).bind (fireDistortionTimer cfg)

/-- Method `ActivateGhostTrail`. -/
def ActivateGhostTrail (s : State) : State :=
  { s with bGhostTrailActive := true, GhostSpawnTimer := 0 }

/-- Method `DeactivateGhostTrail`. -/
def DeactivateGhostTrail (s : State) : State :=
  { s with bGhostTrailActive := false, Ghosts := [] }

/-- What `SpawnGhost` gets from the engine: whether `GetMesh()`, `NewObject` and the two
`GetAnimInstance()` calls return an object, and whether `UMaterialInstanceDynamic::Create`
does. -/
structure SpawnEnv where
  Mesh : Bool
  NewObject : Bool
  MeshAnimInstance : Bool
  GhostAnimInstance : Bool
  GhostMID : Bool
  deriving DecidableEq

/-- The record `NewGhost` that `SpawnGhost` builds in state `s`. -/
def NewGhost (env : SpawnEnv) (s : State) : FGhostTrailData :=
  { GhostMeshComponent :=
      { Id := s.NextObjectId, GhostOpacity := if env.GhostMID then some 1 else none }
    ElapsedTime := 0 }

/-- Method `SpawnGhost`. -/
def SpawnGhost (cfg : Config) (env : SpawnEnv) (s : State) : Option State :=
  if !env.Mesh then some s
  else if env.NewObject then
    if !env.MeshAnimInstance then none
    else if !env.GhostAnimInstance then none
    else
      let Ghosts := s.Ghosts ++ [NewGhost env s]
      let Ghosts := if (Ghosts.length : ℤ) > cfg.MaxGhosts then Ghosts.eraseIdx 0 else Ghosts
      some { s with Ghosts := Ghosts, NextObjectId := s.NextObjectId + 1 }
  else some s

/-- Body of the update loop of `UpdateGhostTrail` for one record. -/
def updateGhost (cfg : Config) (DeltaTime : ℚ) (GhostData : FGhostTrailData) : FGhostTrailData :=
  let ElapsedTime := GhostData.ElapsedTime + DeltaTime
  let LifeRatio := ElapsedTime / cfg.GhostLifetime
  let NewOpacity := FMath.Clamp (1 - LifeRatio) 0 1
  { GhostMeshComponent :=
      { GhostData.GhostMeshComponent with
        GhostOpacity := GhostData.GhostMeshComponent.GhostOpacity.map fun _ => NewOpacity }
    ElapsedTime := ElapsedTime }

/-- The loop `for (i = Ghosts.Num() - 1; i >= 0; --i)` of `UpdateGhostTrail`, with `n = i + 1`
indices still to visit. -/
def updateGhostsLoop (cfg : Config) (DeltaTime : ℚ) : Nat → List FGhostTrailData →
    List FGhostTrailData
  | 0, Ghosts => Ghosts
  | i + 1, Ghosts =>
    match Ghosts[i]? with
    | some GhostData =>
      let GhostData := updateGhost cfg DeltaTime GhostData
      let Ghosts := Ghosts.set i GhostData
      let Ghosts := if GhostData.ElapsedTime ≥ cfg.GhostLifetime then Ghosts.eraseIdx i else Ghosts
      updateGhostsLoop cfg DeltaTime i Ghosts
    | none => updateGhostsLoop cfg DeltaTime i Ghosts

/-- Method `UpdateGhostTrail`. -/
def UpdateGhostTrail (cfg : Config) (DeltaTime : ℚ) (env : SpawnEnv) (s : State) : Option State :=
  let s := { s with GhostSpawnTimer := s.GhostSpawnTimer + DeltaTime }
  let r : Option State :=
    if s.GhostSpawnTimer ≥ cfg.GhostSpawnInterval then
      (SpawnGhost cfg env s).map fun s => { s with GhostSpawnTimer := 0 }
    else some s
  r.map fun s => { s with Ghosts := updateGhostsLoop cfg DeltaTime s.Ghosts.length s.Ghosts }

/-- Method `ActivateSpeedEffects`. -/
def ActivateSpeedEffects (proj : Option ScreenProjection) (s : State) : Option State :=
  let s := { s with bEffectsActive := true, SpeedAuraActive := true }
  let s := ActivateGhostTrail s
  StartDistortionEffect proj s

/-- Method `DeactivateSpeedEffects`. -/
def DeactivateSpeedEffects (proj : Option ScreenProjection) (s : State) : Option State :=
  let s := { s with bEffectsActive := false, SpeedAuraActive := false }
  let s := DeactivateGhostTrail s
  StartDistortionEffect proj s

/-- What one `Tick` reads from the engine. -/
structure TickEnv where
  /-- Argument `DeltaTime`. -/
  DeltaTime : ℚ
  /-- Result of `GetCharacterMovement()->IsFalling()`. -/
  IsFalling : Bool
  /-- Result of the line trace of `CheckForWall`. -/
  LineTrace : Option FHitResult
  /-- Result of `GetVelocity().Size()`. -/
  VelocitySize : ℚ
  /-- Screen projection read by `StartDistortionEffect`. -/
  Screen : Option ScreenProjection
  /-- Engine results read by `SpawnGhost`. -/
  Spawn : SpawnEnv
  deriving DecidableEq

/-- Method `Tick`. `Activate()` and `Deactivate()` of a component set and clear its active
flag. -/
def Tick (cfg : Config) (env : TickEnv) (s : State) : Option State :=
  let s := IncreaseSpeed cfg env.DeltaTime s
  let s := if env.IsFalling then CheckForWall cfg env.LineTrace s else s
  let CurrentSpeedValue := env.VelocitySize
  let s :=
    if CurrentSpeedValue > cfg.LightningActivationSpeed then
      if !s.LightningTrailActive then { s with LightningTrailActive := true } else s
    else
      if s.LightningTrailActive then { s with LightningTrailActive := false } else s
  let bShouldActivateEffects : Bool := CurrentSpeedValue > cfg.EffectActivationSpeed
  let r : Option State :=
    if bShouldActivateEffects && !s.bEffectsActive then ActivateSpeedEffects env.Screen s
    else if !bShouldActivateEffects && s.bEffectsActive then DeactivateSpeedEffects env.Screen s
    else some s
  r.bind fun s =>
    if s.bGhostTrailActive then UpdateGhostTrail cfg env.DeltaTime env.Spawn s else some s

/-! ## Reachable states and invariants -/

/-- States reached from the constructed state by calls, in any order and with any arguments,
of `ActivateGhostTrail`, `DeactivateGhostTrail`, `UpdateGhostTrail` and `SpawnGhost`. -/
inductive GhostReachable (cfg : Config) : State → Prop
  | constructed : GhostReachable cfg constructedState
  | activate {s : State} : GhostReachable cfg s → GhostReachable cfg (ActivateGhostTrail s)
  | deactivate {s : State} : GhostReachable cfg s → GhostReachable cfg (DeactivateGhostTrail s)
  | update {s s' : State} (DeltaTime : ℚ) (env : SpawnEnv) : GhostReachable cfg s →
      UpdateGhostTrail cfg DeltaTime env s = some s' → GhostReachable cfg s'
  | spawn {s s' : State} (env : SpawnEnv) : GhostReachable cfg s →
      SpawnGhost cfg env s = some s' → GhostReachable cfg s'

/-- States reached from the constructed state by calls of `ActivateGhostTrail`,
`DeactivateGhostTrail` and `UpdateGhostTrail` with a non-negative `DeltaTime`. -/
inductive TrailReachable (cfg : Config) : State → Prop
  | constructed : TrailReachable cfg constructedState
  | activate {s : State} : TrailReachable cfg s → TrailReachable cfg (ActivateGhostTrail s)
  | deactivate {s : State} : TrailReachable cfg s → TrailReachable cfg (DeactivateGhostTrail s)
  | update {s s' : State} (DeltaTime : ℚ) (env : SpawnEnv) : TrailReachable cfg s →
      0 ≤ DeltaTime → UpdateGhostTrail cfg DeltaTime env s = some s' → TrailReachable cfg s'

/-- Along `Ghosts`, earlier records are at least as old and were allocated earlier; every
record has a non-negative age and an identity the allocator has already handed out. -/
def GhostsOrdered (s : State) : Prop :=
  s.Ghosts.Pairwise (fun a b =>
      b.ElapsedTime ≤ a.ElapsedTime ∧ a.GhostMeshComponent.Id < b.GhostMeshComponent.Id)
    ∧ ∀ g ∈ s.Ghosts, 0 ≤ g.ElapsedTime ∧ g.GhostMeshComponent.Id < s.NextObjectId

/-- States reached from the constructed state by calls of `CheckForWall`, `StartWallRun` and
`StopWallRun`. -/
inductive WallReachable (cfg : Config) : State → Prop
  | constructed : WallReachable cfg constructedState
  | check {s : State} (HitResult : Option FHitResult) : WallReachable cfg s →
      WallReachable cfg (CheckForWall cfg HitResult s)
  | start {s : State} (WallNormal : FVector) : WallReachable cfg s →
      WallReachable cfg (StartWallRun cfg WallNormal s)
  | stop {s : State} : WallReachable cfg s → WallReachable cfg (StopWallRun s)

/-- States reached from the constructed state by `BeginPlay`, `Tick` and firings of the
distortion timer. -/
inductive TickReachable (cfg : Config) : State → Prop
  | constructed : TickReachable cfg constructedState
  | beginPlay {s : State} : TickReachable cfg s → TickReachable cfg (BeginPlay cfg s)
  | tick {s s' : State} (env : TickEnv) : TickReachable cfg s → Tick cfg env s = some s' →
      TickReachable cfg s'
  | timer {s s' : State} : TickReachable cfg s → fireDistortionTimer cfg s = some s' →
      TickReachable cfg s'

/-- The four effect flags that `Tick` drives. -/
def effectFlags (s : State) : Bool × Bool × Bool × Bool :=
  (s.LightningTrailActive, s.bEffectsActive, s.bGhostTrailActive, s.SpeedAuraActive)

/-- Hit `Hit` has the non-null actor `a`, and `a` carries the tag `"Enemy"`. -/
def IsEnemyHit (Hit : FHitResult) (a : AActor) : Prop :=
  Hit.Actor = some a ∧ a.Tags.contains "Enemy" = true

/-- Every opacity stored on a ghost's dynamic material is the clamped remaining-life ratio of
the current age of that ghost. -/
def OpacityTracksAge (cfg : Config) (s : State) : Prop :=
  ∀ g ∈ s.Ghosts, ∀ o, g.GhostMeshComponent.GhostOpacity = some o →
    o = FMath.Clamp (1 - g.ElapsedTime / cfg.GhostLifetime) 0 1

/-! ## Concrete inputs used to exercise the theorems -/

/-- Engine results for `SpawnGhost` with every object present. -/
def allPresent : SpawnEnv := ⟨true, true, true, true, true⟩

/-- The constructor's properties with the ghost cap lowered to one. -/
def capOneConfig : Config := { constructedConfig with MaxGhosts := 1 }

/-- A ghost record with the given component identity, age and opacity. -/
def ghostOf (Id : Nat) (ElapsedTime GhostOpacity : ℚ) : FGhostTrailData :=
  ⟨⟨Id, some GhostOpacity⟩, ElapsedTime⟩

/-- An enemy a hundred units ahead of the origin. -/
def enemyActor : AActor := ⟨7, ["Enemy"], ⟨100, 0, 0⟩⟩

/-- A sweep hit on `enemyActor`. -/
def enemyHit : FHitResult := ⟨some enemyActor, ⟨-1, 0, 0⟩⟩

/-- An enemy whose squared distance from the origin, `4 * 10^38`, is above `FLT_MAX`. -/
def farEnemyActor : AActor := ⟨8, ["Enemy"], ⟨20000000000000000000, 0, 0⟩⟩

/-- A sweep hit on `farEnemyActor`. -/
def farEnemyHit : FHitResult := ⟨some farEnemyActor, ⟨-1, 0, 0⟩⟩

/-- The constructor's properties with only the intensity curve assigned: `DistortionMaterial`
and `GhostMaterial` are null. -/
def curveOnlyConfig : Config :=
  { constructedConfig with DistortionIntensityCurve := some fun t => 1 - t }

/-- The constructor's properties with the distortion material and intensity curve assigned;
`GhostMaterial` is null. -/
def distortionConfig : Config :=
  { constructedConfig with
    DistortionMaterial := some ⟨(0, 0, 0, 0), 0⟩
    DistortionIntensityCurve := some fun t => 1 - t }

/-- A successful projection to the centre of a 1920 x 1080 viewport. -/
def screenCentre : ScreenProjection := ⟨960, 540, 1920, 1080⟩

/-- A tick of a tenth of a second on the ground at speed 900, above `EffectActivationSpeed`
and below `LightningActivationSpeed`, with no player controller. -/
def fastTick : TickEnv :=
  { DeltaTime := 1 / 10, IsFalling := false, LineTrace := none, VelocitySize := 900,
    Screen := none, Spawn := allPresent }

/-- A line-trace hit on a ceiling: the normal points straight down. -/
def ceilingHit : FHitResult := ⟨none, ⟨0, 0, -1⟩⟩

/-- A line-trace hit on an overhang facing the character, with a unit normal pointing mostly
down. -/
def overhangHit : FHitResult := ⟨none, ⟨3 / 5, 0, -4 / 5⟩⟩

/-- A line-trace hit on a vertical wall facing the character. -/
def wallHit : FHitResult := ⟨none, ⟨-1, 0, 0⟩⟩

/-- The state one `fastTick` leaves after `BeginPlay` under `distortionConfig`. -/
def afterFastTick : State :=
  { constructedState with
    CurrentSpeed := 605
    MaxWalkSpeed := 605
    SpeedAuraActive := true
    DynamicDistortionMaterial := some ⟨(0, 0, 0, 0), 0⟩
    PostProcessBlendable := true
    DistortionEffectTimerSet := true
    bIsDistortionEffectActive := true
    Ghosts := [ghostOf 0 (1 / 10) (5 / 6)]
    bGhostTrailActive := true
    bEffectsActive := true
    Log := [LogEntry.GhostMaterialNotSet]
    NextObjectId := 1 }

/-- The value of `DistortionEffectElapsedTime` after `k` timer callbacks of an effect started
at zero: the `float` sum of `k` additions of `0.01f`. -/
def elapsedAfter : Nat → Binary32
  | 0 => Binary32.zero
  | k + 1 => Binary32.add (elapsedAfter k) Binary32.hundredth

/-- The state `StartDistortionEffect` leaves, without a player controller, after `BeginPlay`
under `distortionConfig`: the effect is active from elapsed time zero and the timer is set. -/
def fadeStart : State :=
  { constructedState with
    DynamicDistortionMaterial := some ⟨(0, 0, 0, 0), 0⟩
    PostProcessBlendable := true
    DistortionEffectTimerSet := true
    bIsDistortionEffectActive := true
    Log := [LogEntry.GhostMaterialNotSet] }

/-- The state an `UpdateGhostTrail` of half a second leaves from `afterFastTick`: the ghost of
the first tick has reached the lifetime of 3/5 and is gone, the ghost spawned by this update
is half a second old. -/
def afterExpiry : State :=
  { afterFastTick with Ghosts := [ghostOf 1 (1 / 2) (1 / 6)], NextObjectId := 2 }

/-- The state a further `UpdateGhostTrail` of a twentieth of a second leaves from
`afterExpiry`: the older ghost has faded from 1/6 to 1/12, a new one was spawned. -/
def afterFade : State :=
  { afterFastTick with
    Ghosts := [ghostOf 1 (11 / 20) (1 / 12), ghostOf 2 (1 / 20) (11 / 12)]
    NextObjectId := 3 }

/-! ## Theorems -/

/-! ### Helper lemmas -/

theorem Clamp_eq_max_min (X lo hi : ℚ) (h : lo ≤ hi) :
    FMath.Clamp X lo hi = max lo (min X hi) := by
  unfold FMath.Clamp
  split_ifs with h1 h2
  · rw [max_eq_left]; exact le_trans (min_le_left _ _) h1.le
  · rw [min_eq_left h2.le, max_eq_right (not_lt.mp h1)]
  · rw [min_eq_right (not_lt.mp h2), max_eq_right h]

theorem set_length_append (l r : List FGhostTrailData) (g g' : FGhostTrailData) :
    (l ++ g :: r).set l.length g' = l ++ g' :: r := by
  induction l with
  | nil => rfl
  | cons a l ih => simp [List.set, ih]

theorem eraseIdx_length_append (l r : List FGhostTrailData) (g : FGhostTrailData) :
    (l ++ g :: r).eraseIdx l.length = l ++ r := by
  induction l with
  | nil => rfl
  | cons a l ih => simp [List.eraseIdx, ih]

theorem getElem?_length_append (l r : List FGhostTrailData) (g : FGhostTrailData) :
    (l ++ g :: r)[l.length]? = some g := by
  induction l with
  | nil => simp
  | cons a l ih => simpa using ih

/-- The loop visits the first `l.length` records from the back: each is aged by
`updateGhost`, and the ones that reached the lifetime are dropped. -/
theorem updateGhostsLoop_append (cfg : Config) (dt : ℚ) (l : List FGhostTrailData) :
    ∀ r : List FGhostTrailData,
      updateGhostsLoop cfg dt l.length (l ++ r)
        = ((l.map (updateGhost cfg dt)).filter fun g => decide (g.ElapsedTime < cfg.GhostLifetime))
            ++ r := by
  induction l using List.reverseRecOn with
  | nil => intro r; simp [updateGhostsLoop]
  | append_singleton l g ih =>
    intro r
    have hlen : (l ++ [g]).length = l.length + 1 := by simp
    rw [hlen, List.append_assoc, List.singleton_append, updateGhostsLoop,
      getElem?_length_append]
    simp only [set_length_append, eraseIdx_length_append]
    by_cases hk : (updateGhost cfg dt g).ElapsedTime ≥ cfg.GhostLifetime
    · rw [if_pos hk, ih r]
      simp [List.filter_cons, not_lt.mpr hk]
    · rw [if_neg hk, ih]
      simp [List.filter_cons, not_le.mp hk]

/-- The whole update loop ages every record and keeps those still below the lifetime. -/
theorem updateGhostsLoop_eq (cfg : Config) (dt : ℚ) (l : List FGhostTrailData) :
    updateGhostsLoop cfg dt l.length l
      = (l.map (updateGhost cfg dt)).filter fun g => decide (g.ElapsedTime < cfg.GhostLifetime) := by
  have h := updateGhostsLoop_append cfg dt l []
  simpa using h

/-- A returning `SpawnGhost` either leaves the state alone or appends `NewGhost` and removes
index 0 when the array then exceeds `MaxGhosts`. -/
theorem SpawnGhost_eq_some {cfg : Config} {env : SpawnEnv} {s s' : State}
    (h : SpawnGhost cfg env s = some s') :
    ((env.Mesh = false ∨ env.NewObject = false) ∧ s' = s) ∨
    (env.Mesh = true ∧ env.NewObject = true ∧ env.MeshAnimInstance = true ∧
      env.GhostAnimInstance = true ∧
      s' = { s with
        Ghosts := if ((s.Ghosts ++ [NewGhost env s]).length : ℤ) > cfg.MaxGhosts
          then (s.Ghosts ++ [NewGhost env s]).eraseIdx 0 else s.Ghosts ++ [NewGhost env s]
        NextObjectId := s.NextObjectId + 1 }) := by
  unfold SpawnGhost at h
  cases hM : env.Mesh <;> cases hN : env.NewObject <;> cases hA : env.MeshAnimInstance <;>
    cases hG : env.GhostAnimInstance <;>
    simp only [hM, hN, hA, hG, Bool.not_true, Bool.not_false, if_true, if_false,
      Bool.false_eq_true, reduceCtorEq] at h <;>
    first
      | exact Or.inl ⟨Or.inl rfl, (Option.some.inj h).symm⟩
      | exact Or.inl ⟨Or.inr rfl, (Option.some.inj h).symm⟩
      | exact Or.inr ⟨rfl, rfl, rfl, rfl, (Option.some.inj h).symm⟩

/-- A returning `UpdateGhostTrail` advances the spawn timer, possibly spawns (resetting the
timer), and then runs the update loop on the array. -/
theorem UpdateGhostTrail_eq_some {cfg : Config} {dt : ℚ} {env : SpawnEnv} {s s' : State}
    (h : UpdateGhostTrail cfg dt env s = some s') :
    ∃ s1 : State,
      (s1 = { s with GhostSpawnTimer := s.GhostSpawnTimer + dt } ∨
        ∃ s0, SpawnGhost cfg env { s with GhostSpawnTimer := s.GhostSpawnTimer + dt } = some s0 ∧
          s1 = { s0 with GhostSpawnTimer := 0 }) ∧
      s' = { s1 with Ghosts := ((s1.Ghosts.map (updateGhost cfg dt)).filter
                (fun g => decide (g.ElapsedTime < cfg.GhostLifetime))) } := by
  unfold UpdateGhostTrail at h
  simp only [Option.map_eq_some'] at h
  obtain ⟨s1, h1, rfl⟩ := h
  refine ⟨s1, ?_, by rw [updateGhostsLoop_eq]⟩
  split_ifs at h1 with hc
  · simp only [Option.map_eq_some'] at h1
    obtain ⟨s0, h0, rfl⟩ := h1
    exact Or.inr ⟨s0, h0, rfl⟩
  · exact Or.inl (Option.some.inj h1).symm

theorem SpawnGhost_length_le {cfg : Config} {env : SpawnEnv} {s s' : State}
    (h : SpawnGhost cfg env s = some s') (hs : (s.Ghosts.length : ℤ) ≤ cfg.MaxGhosts) :
    (s'.Ghosts.length : ℤ) ≤ cfg.MaxGhosts := by
  rcases SpawnGhost_eq_some h with ⟨-, rfl⟩ | ⟨-, -, -, -, rfl⟩
  · exact hs
  · show ((if _ then _ else _ : List FGhostTrailData).length : ℤ) ≤ _
    split_ifs with hc
    · simp only [List.length_eraseIdx, List.length_append, List.length_singleton]
      simp
      exact hs
    · exact not_lt.mp hc

theorem UpdateGhostTrail_length_le {cfg : Config} {dt : ℚ} {env : SpawnEnv} {s s' : State}
    (hs : (s.Ghosts.length : ℤ) ≤ cfg.MaxGhosts) (h : UpdateGhostTrail cfg dt env s = some s') :
    (s'.Ghosts.length : ℤ) ≤ cfg.MaxGhosts := by
  obtain ⟨s1, h1, rfl⟩ := UpdateGhostTrail_eq_some h
  have hs1 : (s1.Ghosts.length : ℤ) ≤ cfg.MaxGhosts := by
    rcases h1 with rfl | ⟨s0, h0, rfl⟩
    · exact hs
    · have h2 := SpawnGhost_length_le h0 hs
      exact h2
  refine le_trans ?_ hs1
  have := List.length_filter_le (fun g => decide (g.ElapsedTime < cfg.GhostLifetime))
    (s1.Ghosts.map (updateGhost cfg dt))
  simp only [List.length_map] at this
  exact_mod_cast this

theorem ordered_append_NewGhost (env : SpawnEnv) {s : State} (hs : GhostsOrdered s) :
    (s.Ghosts ++ [NewGhost env s]).Pairwise (fun a b =>
        b.ElapsedTime ≤ a.ElapsedTime ∧ a.GhostMeshComponent.Id < b.GhostMeshComponent.Id)
      ∧ ∀ g ∈ s.Ghosts ++ [NewGhost env s],
          0 ≤ g.ElapsedTime ∧ g.GhostMeshComponent.Id < s.NextObjectId + 1 := by
  obtain ⟨hp, hm⟩ := hs
  constructor
  · rw [List.pairwise_append]
    refine ⟨hp, List.pairwise_singleton _ _, ?_⟩
    intro a ha b hb
    rw [List.mem_singleton] at hb
    subst hb
    exact ⟨(hm a ha).1, (hm a ha).2⟩
  · intro g hg
    rw [List.mem_append, List.mem_singleton] at hg
    rcases hg with hg | rfl
    · exact ⟨(hm g hg).1, Nat.lt_succ_of_lt (hm g hg).2⟩
    · exact ⟨le_refl _, Nat.lt_succ_self _⟩

theorem SpawnGhost_ordered {cfg : Config} {env : SpawnEnv} {s s' : State}
    (h : SpawnGhost cfg env s = some s') (hs : GhostsOrdered s) : GhostsOrdered s' := by
  rcases SpawnGhost_eq_some h with ⟨-, rfl⟩ | ⟨-, -, -, -, rfl⟩
  · exact hs
  · obtain ⟨hp, hm⟩ := ordered_append_NewGhost env hs
    unfold GhostsOrdered
    dsimp only
    split_ifs with hc
    · have hsub : ((s.Ghosts ++ [NewGhost env s]).eraseIdx 0).Sublist
          (s.Ghosts ++ [NewGhost env s]) := List.eraseIdx_sublist _ _
      exact ⟨hp.sublist hsub, fun g hg => hm g (hsub.subset hg)⟩
    · exact ⟨hp, hm⟩

theorem UpdateGhostTrail_ordered {cfg : Config} {dt : ℚ} {env : SpawnEnv} {s s' : State}
    (hdt : 0 ≤ dt) (hs : GhostsOrdered s) (h : UpdateGhostTrail cfg dt env s = some s') :
    GhostsOrdered s' := by
  obtain ⟨s1, h1, rfl⟩ := UpdateGhostTrail_eq_some h
  have hs1 : GhostsOrdered s1 := by
    rcases h1 with rfl | ⟨s0, h0, rfl⟩
    · exact hs
    · have h2 := SpawnGhost_ordered h0 hs
      exact h2
  obtain ⟨hp, hm⟩ := hs1
  unfold GhostsOrdered
  dsimp only
  constructor
  · apply List.Pairwise.filter
    rw [List.pairwise_map]
    refine hp.imp ?_
    intro a b hab
    simp only [updateGhost]
    exact ⟨by linarith [hab.1], hab.2⟩
  · intro g hg
    rw [List.mem_filter, List.mem_map] at hg
    obtain ⟨⟨a, ha, rfl⟩, -⟩ := hg
    simp only [updateGhost]
    exact ⟨by linarith [(hm a ha).1], (hm a ha).2⟩

theorem TrailReachable_ordered {cfg : Config} {s : State} (h : TrailReachable cfg s) :
    GhostsOrdered s := by
  induction h with
  | constructed => simp [GhostsOrdered, constructedState]
  | activate _ ih => exact ih
  | deactivate _ _ => simp [GhostsOrdered, DeactivateGhostTrail]
  | update dt env _ hdt hu ih => exact UpdateGhostTrail_ordered hdt ih hu

/-! ### C1: the ghost cap -/

/-- C1. Ghost cap: with a non-negative `MaxGhosts` held fixed, in every state reached from the
constructed state by any sequence of `ActivateGhostTrail`, `DeactivateGhostTrail`,
`UpdateGhostTrail` and `SpawnGhost` calls (hence after each call of the sequence) the number
of records in `Ghosts` is at most `MaxGhosts`. -/
theorem Ghosts_length_le_MaxGhosts (cfg : Config) (hMax : 0 ≤ cfg.MaxGhosts) (s : State)
    (h : GhostReachable cfg s) : (s.Ghosts.length : ℤ) ≤ cfg.MaxGhosts := by
  induction h with
  | constructed => simpa [constructedState] using hMax
  | activate _ ih => exact ih
  | deactivate _ _ => simpa [DeactivateGhostTrail] using hMax
  | update dt env _ hu ih => exact UpdateGhostTrail_length_le ih hu
  | spawn env _ hsp ih => exact SpawnGhost_length_le hsp ih

/-- C1 exercised: with the cap at one, two successive spawns leave one record. -/
theorem Ghosts_length_le_MaxGhosts_witness :
    (0 : ℤ) ≤ capOneConfig.MaxGhosts ∧
    GhostReachable capOneConfig { constructedState with Ghosts := [ghostOf 1 0 1], NextObjectId := 2 } ∧
    (([ghostOf 1 0 1] : List FGhostTrailData).length : ℤ) ≤ capOneConfig.MaxGhosts :=
  have h0 : (0 : ℤ) ≤ capOneConfig.MaxGhosts := by decide
  have hr : GhostReachable capOneConfig
      { constructedState with Ghosts := [ghostOf 1 0 1], NextObjectId := 2 } :=
    GhostReachable.spawn (s := { constructedState with Ghosts := [ghostOf 0 0 1], NextObjectId := 1 })
      allPresent (GhostReachable.spawn (s := constructedState) allPresent
        GhostReachable.constructed (by rfl)) (by rfl)
  ⟨h0, hr, Ghosts_length_le_MaxGhosts capOneConfig h0 _ hr⟩

/-! ### C2: oldest-first eviction -/

/-- C2. Oldest-first eviction: in every state reached from the constructed state by
`ActivateGhostTrail`, `DeactivateGhostTrail` and `UpdateGhostTrail` with `DeltaTime ≥ 0`, the
`Ghosts` array is ordered by non-increasing `ElapsedTime`; and whenever `SpawnGhost` (run on
such a state, whatever the spawn timer) appends a record and the array then exceeds
`MaxGhosts`, the appended array is `oldest :: Ghosts'` with `Ghosts'` the array it leaves:
the record removed is the one at index 0, the others keep their order, and the removed one
has the largest `ElapsedTime` and the earliest allocation identity of all. -/
theorem SpawnGhost_evicts_oldest (cfg : Config) (s : State) (h : TrailReachable cfg s) :
    s.Ghosts.Pairwise (fun a b => b.ElapsedTime ≤ a.ElapsedTime) ∧
    ∀ (env : SpawnEnv) (t : ℚ) (s' : State),
      SpawnGhost cfg env { s with GhostSpawnTimer := t } = some s' →
      env.Mesh = true → env.NewObject = true →
      cfg.MaxGhosts < ((s.Ghosts ++ [NewGhost env s]).length : ℤ) →
      ∃ oldest : FGhostTrailData,
        s.Ghosts ++ [NewGhost env s] = oldest :: s'.Ghosts ∧
        ∀ g ∈ s'.Ghosts, g.ElapsedTime ≤ oldest.ElapsedTime ∧
          oldest.GhostMeshComponent.Id < g.GhostMeshComponent.Id := by
  have ho := TrailReachable_ordered h
  refine ⟨ho.1.imp (fun hab => hab.1), ?_⟩
  intro env t s' hsp hM hN hlen
  rcases SpawnGhost_eq_some hsp with ⟨hno, -⟩ | ⟨-, -, -, -, rfl⟩
  · rcases hno with hno | hno
    · rw [hM] at hno; cases hno
    · rw [hN] at hno; cases hno
  · obtain ⟨hp, -⟩ := ordered_append_NewGhost env ho
    have hE : NewGhost env { s with GhostSpawnTimer := t } = NewGhost env s := rfl
    dsimp only
    rw [hE, if_pos hlen]
    cases hL : s.Ghosts ++ [NewGhost env s] with
    | nil => simp at hL
    | cons oldest rest =>
      rw [hL] at hp
      refine ⟨oldest, rfl, ?_⟩
      intro g hg
      exact List.rel_of_pairwise_cons hp hg

/-- C2 exercised: after one update of a tenth of a second with the cap at one, the next
spawn removes the ghost spawned first. -/
theorem SpawnGhost_evicts_oldest_witness :
    TrailReachable capOneConfig
        { constructedState with Ghosts := [ghostOf 0 (1 / 10) (5 / 6)], NextObjectId := 1 } ∧
    ∃ oldest : FGhostTrailData,
      [ghostOf 0 (1 / 10) (5 / 6)] ++ [ghostOf 1 0 1] = oldest :: [ghostOf 1 0 1] ∧
      ∀ g ∈ [ghostOf 1 0 1], g.ElapsedTime ≤ oldest.ElapsedTime ∧
        oldest.GhostMeshComponent.Id < g.GhostMeshComponent.Id :=
  have hr : TrailReachable capOneConfig
      { constructedState with Ghosts := [ghostOf 0 (1 / 10) (5 / 6)], NextObjectId := 1 } :=
    TrailReachable.update (s := constructedState) (1 / 10) allPresent TrailReachable.constructed
      (by norm_num)
      (by norm_num [UpdateGhostTrail, capOneConfig, constructedConfig, constructedState,
            SpawnGhost, allPresent, NewGhost, updateGhostsLoop_eq, updateGhost, ghostOf,
            FMath.Clamp])
  ⟨hr, (SpawnGhost_evicts_oldest capOneConfig _ hr).2 allPresent 0
    { constructedState with Ghosts := [ghostOf 1 0 1], NextObjectId := 2 }
    (by rfl) rfl rfl (by decide)⟩

/-! ### C3: the speed ramp -/

/-- C3. Speed ramp toward a cap: when `InitialSpeed ≤ MaxSpeed`, for every `DeltaTime` and
state, `IncreaseSpeed` sets `CurrentSpeed` to `CurrentSpeed + SpeedIncreaseRate * DeltaTime`
clamped into `[InitialSpeed, MaxSpeed]` and `MaxWalkSpeed` to the same value; so
`InitialSpeed ≤ MaxWalkSpeed ≤ MaxSpeed` afterwards, and the new speed is exactly the
unclamped sum whenever that sum lies inside the range. -/
theorem IncreaseSpeed_clamped_ramp (cfg : Config) (DeltaTime : ℚ) (s : State)
    (h : cfg.InitialSpeed ≤ cfg.MaxSpeed) :
    (IncreaseSpeed cfg DeltaTime s).CurrentSpeed
        = max cfg.InitialSpeed (min (s.CurrentSpeed + cfg.SpeedIncreaseRate * DeltaTime) cfg.MaxSpeed)
      ∧ (IncreaseSpeed cfg DeltaTime s).MaxWalkSpeed = (IncreaseSpeed cfg DeltaTime s).CurrentSpeed
      ∧ cfg.InitialSpeed ≤ (IncreaseSpeed cfg DeltaTime s).MaxWalkSpeed
      ∧ (IncreaseSpeed cfg DeltaTime s).MaxWalkSpeed ≤ cfg.MaxSpeed
      ∧ (cfg.InitialSpeed ≤ s.CurrentSpeed + cfg.SpeedIncreaseRate * DeltaTime →
          s.CurrentSpeed + cfg.SpeedIncreaseRate * DeltaTime ≤ cfg.MaxSpeed →
          (IncreaseSpeed cfg DeltaTime s).MaxWalkSpeed
            = s.CurrentSpeed + cfg.SpeedIncreaseRate * DeltaTime) := by
  have e := Clamp_eq_max_min (s.CurrentSpeed + cfg.SpeedIncreaseRate * DeltaTime) _ _ h
  simp only [IncreaseSpeed, e]
  refine ⟨trivial, trivial, le_max_left _ _, max_le h (min_le_right _ _), ?_⟩
  intro h1 h2
  rw [min_eq_left h2, max_eq_right h1]

/-- C3 exercised on the constructed state with a tenth of a second. -/
theorem IncreaseSpeed_clamped_ramp_witness :
    constructedConfig.InitialSpeed ≤ constructedConfig.MaxSpeed ∧
    (IncreaseSpeed constructedConfig (1 / 10) constructedState).MaxWalkSpeed = 605 := by
  have h : constructedConfig.InitialSpeed ≤ constructedConfig.MaxSpeed := by
    norm_num [constructedConfig]
  refine ⟨h, ?_⟩
  rw [(IncreaseSpeed_clamped_ramp constructedConfig (1 / 10) constructedState h).2.2.2.2
    (by norm_num [constructedConfig, constructedState])
    (by norm_num [constructedConfig, constructedState])]
  norm_num [constructedConfig, constructedState]

/-! ### C4: nearest-target selection -/

/-- One loop iteration either keeps the running pair, and then the hit carries no enemy
nearer than the running minimum, or replaces it by a strictly nearer enemy. -/
theorem nearestEnemyStep_cases (Self : FVector) (acc : Option AActor × ℚ) (Hit : FHitResult) :
    (nearestEnemyStep Self acc Hit = acc ∧
        ∀ a, IsEnemyHit Hit a → acc.2 ≤ FVector.DistSquared Self a.Location) ∨
    (∃ a, IsEnemyHit Hit a ∧ FVector.DistSquared Self a.Location < acc.2 ∧
        nearestEnemyStep Self acc Hit = (some a, FVector.DistSquared Self a.Location)) := by
  unfold nearestEnemyStep IsEnemyHit
  cases hA : Hit.Actor with
  | none => left; simp
  | some b =>
    by_cases hE : b.Tags.contains "Enemy" = true
    · by_cases hd : FVector.DistSquared Self b.Location < acc.2
      · right
        exact ⟨b, ⟨rfl, hE⟩, hd, by simp only [if_pos hE, if_pos hd]⟩
      · left
        refine ⟨by simp only [if_pos hE, if_neg hd], ?_⟩
        intro a ha
        have : b = a := Option.some.inj ha.1
        subst this
        exact not_lt.mp hd
    · left
      refine ⟨by simp only [if_neg hE], ?_⟩
      intro a ha
      have : b = a := Option.some.inj ha.1
      subst this
      exact absurd ha.2 hE

/-- What the loop of `PerformAttack` has found after all hits. -/
theorem nearestEnemy_fold (Self : FVector) (hits : List FHitResult) :
    ((hits.foldl (nearestEnemyStep Self) (none, FLT_MAX)).1 = none →
        (hits.foldl (nearestEnemyStep Self) (none, FLT_MAX)).2 = FLT_MAX ∧
        ∀ h ∈ hits, ∀ a, IsEnemyHit h a → FLT_MAX ≤ FVector.DistSquared Self a.Location) ∧
    (∀ T, (hits.foldl (nearestEnemyStep Self) (none, FLT_MAX)).1 = some T →
        (hits.foldl (nearestEnemyStep Self) (none, FLT_MAX)).2 = FVector.DistSquared Self T.Location ∧
        FVector.DistSquared Self T.Location < FLT_MAX ∧
        ∃ pre hitT post, hits = pre ++ hitT :: post ∧ IsEnemyHit hitT T ∧
          (∀ h ∈ pre, ∀ a, IsEnemyHit h a →
            FVector.DistSquared Self T.Location < FVector.DistSquared Self a.Location) ∧
          (∀ h ∈ post, ∀ a, IsEnemyHit h a →
            FVector.DistSquared Self T.Location ≤ FVector.DistSquared Self a.Location)) := by
  induction hits using List.reverseRecOn with
  | nil => simp
  | append_singleton l x ih =>
    rw [List.foldl_append, List.foldl_cons, List.foldl_nil]
    obtain ⟨ihN, ihS⟩ := ih
    generalize hacc : l.foldl (nearestEnemyStep Self) (none, FLT_MAX) = acc at ihN ihS ⊢
    rcases nearestEnemyStep_cases Self acc x with ⟨hstep, hx⟩ | ⟨a, ha, hd, hstep⟩
    · rw [hstep]
      constructor
      · intro hn
        obtain ⟨h2, hall⟩ := ihN hn
        refine ⟨h2, ?_⟩
        intro h hh b hb
        rw [List.mem_append, List.mem_singleton] at hh
        rcases hh with hh | rfl
        · exact hall h hh b hb
        · rw [← h2]; exact hx b hb
      · intro T hT
        obtain ⟨h2, hlt, pre, hitT, post, hl, hTe, hpre, hpost⟩ := ihS T hT
        refine ⟨h2, hlt, pre, hitT, post ++ [x], by rw [hl]; simp, hTe, hpre, ?_⟩
        intro h hh b hb
        rw [List.mem_append, List.mem_singleton] at hh
        rcases hh with hh | rfl
        · exact hpost h hh b hb
        · rw [← h2]; exact hx b hb
    · rw [hstep]
      constructor
      · intro hn; cases hn
      · intro T hT
        have hTa : a = T := Option.some.inj hT
        subst hTa
        have hbound : ∀ h ∈ l, ∀ b, IsEnemyHit h b →
            FVector.DistSquared Self a.Location < FVector.DistSquared Self b.Location ∧
            acc.2 ≤ FLT_MAX := by
          intro h hh b hb
          cases hb1 : acc.1 with
          | none =>
            obtain ⟨h2, hall⟩ := ihN hb1
            exact ⟨lt_of_lt_of_le (h2 ▸ hd) (hall h hh b hb), h2.le⟩
          | some T' =>
            obtain ⟨h2, hlt, pre, hitT, post, hl, hTe, hpre, hpost⟩ := ihS T' hb1
            have hmem : h ∈ pre ∨ h = hitT ∨ h ∈ post := by
              rw [hl] at hh
              simpa using hh
            have hle : FVector.DistSquared Self T'.Location ≤ FVector.DistSquared Self b.Location := by
              rcases hmem with hm | rfl | hm
              · exact (hpre h hm b hb).le
              · have : T' = b := Option.some.inj (hTe.1.symm.trans hb.1)
                rw [this]
              · exact hpost h hm b hb
            exact ⟨lt_of_lt_of_le (h2 ▸ hd) hle, h2 ▸ hlt.le⟩
        have hmax : acc.2 ≤ FLT_MAX := by
          cases hb1 : acc.1 with
          | none => exact (ihN hb1).1.le
          | some T' => obtain ⟨h2, hlt, -⟩ := ihS T' hb1; exact h2 ▸ hlt.le
        refine ⟨rfl, lt_of_lt_of_le hd hmax, l, x, [], rfl, ha, ?_, ?_⟩
        · intro h hh b hb
          exact (hbound h hh b hb).1
        · intro h hh
          cases hh

/-- With a true sweep result `PerformAttack` acts on whatever the loop found. -/
theorem PerformAttack_eq (cfg : Config) (Self : FVector) (hits : List FHitResult) :
    PerformAttack cfg Self true hits =
      (hits.foldl (nearestEnemyStep Self) (none, FLT_MAX)).1.map fun T =>
        { LaunchTarget := T, LaunchToward := FVector.sub T.Location Self,
          LaunchSpeed := cfg.ZipSpeed, Damaged := T, Damage := 50 } := by
  unfold PerformAttack
  simp only [if_true]
  cases (hits.foldl (nearestEnemyStep Self) (none, FLT_MAX)).1 <;> rfl

/-- C4, amended. `PerformAttack` launches toward and damages an actor exactly when the sweep
returned true and some hit has a non-null actor tagged "Enemy" whose squared distance to the
character is below `FLT_MAX`. The actor `T` launched toward is the one damaged (by 50); it is
the actor of a hit `hitT`, tagged "Enemy"; every Enemy-tagged actor of an earlier hit is
strictly farther and every Enemy-tagged actor of a later hit is at least as far, so `T` is at
the minimal squared distance and is the first such in hit order. -/
theorem PerformAttack_nearest_enemy (cfg : Config) (Self : FVector) (bHit : Bool)
    (HitResults : List FHitResult) :
    ((∃ e, PerformAttack cfg Self bHit HitResults = some e) ↔
      (bHit = true ∧ ∃ h ∈ HitResults, ∃ a, IsEnemyHit h a ∧
        FVector.DistSquared Self a.Location < FLT_MAX)) ∧
    ∀ e, PerformAttack cfg Self bHit HitResults = some e →
      e.Damaged = e.LaunchTarget ∧ e.Damage = 50 ∧ e.LaunchSpeed = cfg.ZipSpeed ∧
      e.LaunchToward = FVector.sub e.LaunchTarget.Location Self ∧
      FVector.DistSquared Self e.LaunchTarget.Location < FLT_MAX ∧
      ∃ pre hitT post, HitResults = pre ++ hitT :: post ∧ IsEnemyHit hitT e.LaunchTarget ∧
        (∀ h ∈ pre, ∀ a, IsEnemyHit h a →
          FVector.DistSquared Self e.LaunchTarget.Location
            < FVector.DistSquared Self a.Location) ∧
        (∀ h ∈ post, ∀ a, IsEnemyHit h a →
          FVector.DistSquared Self e.LaunchTarget.Location
            ≤ FVector.DistSquared Self a.Location) := by
  cases bHit with
  | false => simp [PerformAttack]
  | true =>
    rw [PerformAttack_eq]
    obtain ⟨hN, hS⟩ := nearestEnemy_fold Self HitResults
    cases hf : (HitResults.foldl (nearestEnemyStep Self) (none, FLT_MAX)).1 with
    | none =>
      obtain ⟨-, hall⟩ := hN hf
      constructor
      · constructor
        · rintro ⟨e, he⟩; cases he
        · rintro ⟨-, h, hh, a, ha, hlt⟩
          exact absurd hlt (not_lt.mpr (hall h hh a ha))
      · intro e he; cases he
    | some T =>
      obtain ⟨-, hlt, pre, hitT, post, hl, hTe, hpre, hpost⟩ := hS T hf
      constructor
      · constructor
        · intro _
          exact ⟨rfl, hitT, by rw [hl]; simp, T, hTe, hlt⟩
        · intro _
          exact ⟨_, rfl⟩
      · intro e he
        have he' := Option.some.inj he
        subst he'
        exact ⟨rfl, rfl, rfl, rfl, hlt, pre, hitT, post, hl, hTe, hpre, hpost⟩

/-- C4, counterexample. A hit list holding an Enemy-tagged actor does not make
`PerformAttack` attack: not when `SweepMultiByChannel` returned false (no blocking hit), and
not when the enemy's squared distance is not below the initial minimum `FLT_MAX`. -/
theorem PerformAttack_enemy_hit_not_attacked :
    (IsEnemyHit enemyHit enemyActor ∧
      PerformAttack constructedConfig ⟨0, 0, 0⟩ false [enemyHit] = none) ∧
    (IsEnemyHit farEnemyHit farEnemyActor ∧
      PerformAttack constructedConfig ⟨0, 0, 0⟩ true [farEnemyHit] = none) := by
  refine ⟨⟨⟨rfl, by decide⟩, rfl⟩, ⟨⟨rfl, by decide⟩, ?_⟩⟩
  norm_num [PerformAttack, nearestEnemyStep, farEnemyHit, farEnemyActor, FLT_MAX,
    FVector.DistSquared]

/-! ### C5: the distortion material is dereferenced when null -/

/-- C5, the code at the failing input. With `DistortionMaterial` unassigned, `BeginPlay` leaves
`DynamicDistortionMaterial` null; then `StartDistortionEffect` with a successful screen
projection (also when reached through `ActivateSpeedEffects` or `DeactivateSpeedEffects`) and
the timer callback `UpdateDistortionEffect` all end in the null access. -/
theorem null_DynamicDistortionMaterial_dereferenced :
    curveOnlyConfig.DistortionMaterial = none ∧
    (BeginPlay curveOnlyConfig constructedState).DynamicDistortionMaterial = none ∧
    StartDistortionEffect (some screenCentre) (BeginPlay curveOnlyConfig constructedState) = none ∧
    ActivateSpeedEffects (some screenCentre) (BeginPlay curveOnlyConfig constructedState) = none ∧
    DeactivateSpeedEffects (some screenCentre) (BeginPlay curveOnlyConfig constructedState) = none ∧
    UpdateDistortionEffect curveOnlyConfig (BeginPlay curveOnlyConfig constructedState) = none := by
  refine ⟨rfl, rfl, rfl, rfl, rfl, ?_⟩
  norm_num [UpdateDistortionEffect, BeginPlay, curveOnlyConfig, constructedConfig, constructedState]

/-! ### C6: a missing ghost material does not disable the ghost trail -/

/-- C6, counterexample. With `GhostMaterial` unassigned `BeginPlay` logs the warning, and the
first fast `Tick` afterwards still adds a ghost record to the empty `Ghosts` array. -/
theorem ghost_added_without_GhostMaterial :
    distortionConfig.GhostMaterial = false ∧
    (BeginPlay distortionConfig constructedState).Log = [LogEntry.GhostMaterialNotSet] ∧
    (BeginPlay distortionConfig constructedState).Ghosts = [] ∧
    (Tick distortionConfig fastTick (BeginPlay distortionConfig constructedState)).map
      (fun s => s.Ghosts) = some [ghostOf 0 (1 / 10) (5 / 6)] := by
  refine ⟨rfl, rfl, rfl, ?_⟩
  norm_num [Tick, fastTick, BeginPlay, distortionConfig, constructedConfig, constructedState,
    IncreaseSpeed, FMath.Clamp, ActivateSpeedEffects, ActivateGhostTrail, StartDistortionEffect,
    UpdateGhostTrail, SpawnGhost, allPresent, NewGhost, updateGhostsLoop_eq, updateGhost, ghostOf]

/-- C6, amended. With `GhostMaterial` unassigned, `BeginPlay` logs the warning and changes
neither `Ghosts` nor `bGhostTrailActive`; the trail is not disabled: whenever the character
mesh, the new component and both anim instances exist, `SpawnGhost` returns having appended
the new record (the array afterwards is the appended array, or that array without index 0),
and with `MaxGhosts ≥ 1` the new record is in `Ghosts` afterwards. -/
theorem SpawnGhost_adds_record_without_GhostMaterial (cfg : Config) (s : State)
    (hG : cfg.GhostMaterial = false) :
    (BeginPlay cfg s).Log = s.Log ++ [LogEntry.GhostMaterialNotSet] ∧
    (BeginPlay cfg s).Ghosts = s.Ghosts ∧
    (BeginPlay cfg s).bGhostTrailActive = s.bGhostTrailActive ∧
    ∀ (env : SpawnEnv) (t : State), env.Mesh = true → env.NewObject = true →
      env.MeshAnimInstance = true → env.GhostAnimInstance = true →
      ∃ t', SpawnGhost cfg env t = some t' ∧
        (t'.Ghosts = t.Ghosts ++ [NewGhost env t] ∨
          t'.Ghosts = (t.Ghosts ++ [NewGhost env t]).tail) ∧
        (1 ≤ cfg.MaxGhosts → NewGhost env t ∈ t'.Ghosts) := by
  refine ⟨?_, ?_, ?_, ?_⟩
  · unfold BeginPlay
    cases cfg.LightningTrailSystem <;> cases cfg.SpeedAuraSystem <;>
      cases cfg.DistortionMaterial <;> simp [hG]
  · unfold BeginPlay
    cases cfg.LightningTrailSystem <;> cases cfg.SpeedAuraSystem <;>
      cases cfg.DistortionMaterial <;> simp [hG]
  · unfold BeginPlay
    cases cfg.LightningTrailSystem <;> cases cfg.SpeedAuraSystem <;>
      cases cfg.DistortionMaterial <;> simp [hG]
  · intro env t hM hN hA hGA
    by_cases hc : ((t.Ghosts ++ [NewGhost env t]).length : ℤ) > cfg.MaxGhosts
    · refine ⟨{ t with Ghosts := (t.Ghosts ++ [NewGhost env t]).eraseIdx 0,
                       NextObjectId := t.NextObjectId + 1 }, ?_, ?_, ?_⟩
      · simp only [SpawnGhost, hM, hN, hA, hGA, Bool.not_true, if_pos hc, if_true,
          Bool.false_eq_true, if_false]
      · right
        simp
      · intro h1
        cases hL : t.Ghosts with
        | nil =>
          rw [hL] at hc
          simp at hc
          omega
        | cons a l => simp
    · refine ⟨{ t with Ghosts := t.Ghosts ++ [NewGhost env t],
                       NextObjectId := t.NextObjectId + 1 }, ?_, ?_, ?_⟩
      · simp only [SpawnGhost, hM, hN, hA, hGA, Bool.not_true, if_neg hc, if_true,
          Bool.false_eq_true, if_false]
      · left; rfl
      · intro _; simp

/-- C6 amended, exercised on the constructed state with the constructor's properties. -/
theorem SpawnGhost_adds_record_without_GhostMaterial_witness :
    constructedConfig.GhostMaterial = false ∧
    ∃ t', SpawnGhost constructedConfig allPresent constructedState = some t' ∧
      (t'.Ghosts = constructedState.Ghosts ++ [NewGhost allPresent constructedState] ∨
        t'.Ghosts = (constructedState.Ghosts ++ [NewGhost allPresent constructedState]).tail) ∧
      (1 ≤ constructedConfig.MaxGhosts → NewGhost allPresent constructedState ∈ t'.Ghosts) :=
  ⟨rfl, (SpawnGhost_adds_record_without_GhostMaterial constructedConfig constructedState rfl).2.2.2
    allPresent constructedState rfl rfl rfl rfl⟩

/-! ### C7: effects follow the velocity -/

theorem SpawnGhost_effectFlags {cfg : Config} {env : SpawnEnv} {s s' : State}
    (h : SpawnGhost cfg env s = some s') : effectFlags s' = effectFlags s := by
  rcases SpawnGhost_eq_some h with ⟨-, rfl⟩ | ⟨-, -, -, -, rfl⟩ <;> rfl

theorem UpdateGhostTrail_effectFlags {cfg : Config} {dt : ℚ} {env : SpawnEnv} {s s' : State}
    (h : UpdateGhostTrail cfg dt env s = some s') : effectFlags s' = effectFlags s := by
  obtain ⟨s1, h1, rfl⟩ := UpdateGhostTrail_eq_some h
  rcases h1 with rfl | ⟨s0, h0, rfl⟩
  · rfl
  · have h2 := SpawnGhost_effectFlags h0
    exact h2

theorem StartDistortionEffect_effectFlags {proj : Option ScreenProjection} {s s' : State}
    (h : StartDistortionEffect proj s = some s') : effectFlags s' = effectFlags s := by
  unfold StartDistortionEffect at h
  split_ifs at h with hA
  · cases h; rfl
  · simp only [Option.map_eq_some'] at h
    obtain ⟨s2, h2, rfl⟩ := h
    cases proj with
    | none => cases h2; rfl
    | some p =>
      dsimp only at h2
      cases hm : s.DynamicDistortionMaterial with
      | none => rw [hm] at h2; cases h2
      | some m => rw [hm] at h2; cases h2; rfl

theorem UpdateDistortionEffect_effectFlags {cfg : Config} {s s' : State}
    (h : UpdateDistortionEffect cfg s = some s') : effectFlags s' = effectFlags s := by
  unfold UpdateDistortionEffect at h
  dsimp only at h
  cases hm : s.DynamicDistortionMaterial with
  | none =>
    rw [hm] at h
    split_ifs at h
    cases hc : cfg.DistortionIntensityCurve with
    | none => rw [hc] at h; cases h
    | some c => rw [hc] at h; cases h
  | some m =>
    rw [hm] at h
    split_ifs at h
    · cases h; rfl
    · cases hc : cfg.DistortionIntensityCurve with
      | none => rw [hc] at h; cases h
      | some c => rw [hc] at h; cases h; rfl

theorem fireDistortionTimer_effectFlags {cfg : Config} {s s' : State}
    (h : fireDistortionTimer cfg s = some s') : effectFlags s' = effectFlags s := by
  unfold fireDistortionTimer at h
  split_ifs at h
  · exact UpdateDistortionEffect_effectFlags h
  · cases h; rfl

theorem BeginPlay_effectFlags (cfg : Config) (s : State) :
    effectFlags (BeginPlay cfg s) = effectFlags s := by
  unfold BeginPlay
  cases cfg.LightningTrailSystem <;> cases cfg.SpeedAuraSystem <;>
    cases cfg.DistortionMaterial <;> cases cfg.GhostMaterial <;> rfl

theorem CheckForWall_effectFlags (cfg : Config) (hit : Option FHitResult) (s : State) :
    effectFlags (CheckForWall cfg hit s) = effectFlags s := by
  unfold CheckForWall StartWallRun StopWallRun
  cases hit with
  | none => dsimp only; split_ifs <;> rfl
  | some h => dsimp only; split_ifs <;> rfl

/-- One `Tick` from a state whose ghost-trail and aura flags agree with `bEffectsActive`. -/
theorem Tick_effectFlags {cfg : Config} {env : TickEnv} {s s' : State}
    (hsync : s.bGhostTrailActive = s.bEffectsActive ∧ s.SpeedAuraActive = s.bEffectsActive)
    (h : Tick cfg env s = some s') :
    effectFlags s' =
      (decide (env.VelocitySize > cfg.LightningActivationSpeed),
       decide (env.VelocitySize > cfg.EffectActivationSpeed),
       decide (env.VelocitySize > cfg.EffectActivationSpeed),
       decide (env.VelocitySize > cfg.EffectActivationSpeed)) := by
  unfold Tick at h
  simp only [Option.bind_eq_some] at h
  obtain ⟨s2, h2, h3⟩ := h
  have h32 : effectFlags s' = effectFlags s2 := by
    split_ifs at h3
    · exact UpdateGhostTrail_effectFlags h3
    · cases h3; rfl
  rw [h32]
  -- the state before the lightning block
  generalize hs0 : (if env.IsFalling = true then
      CheckForWall cfg env.LineTrace (IncreaseSpeed cfg env.DeltaTime s)
    else IncreaseSpeed cfg env.DeltaTime s) = s0 at h2
  have hf0 : effectFlags s0 = effectFlags s := by
    rw [← hs0]
    split_ifs
    · rw [CheckForWall_effectFlags]; rfl
    · rfl
  have hg0 : s0.bGhostTrailActive = s0.bEffectsActive ∧ s0.SpeedAuraActive = s0.bEffectsActive := by
    have := hf0
    simp only [effectFlags, Prod.mk.injEq] at this
    obtain ⟨-, e1, e2, e3⟩ := this
    rw [e1, e2, e3]; exact hsync
  clear hs0 hf0 hsync h3 h32
  obtain ⟨hg1, hg2⟩ := hg0
  by_cases hL : env.VelocitySize > cfg.LightningActivationSpeed <;>
  by_cases hE : env.VelocitySize > cfg.EffectActivationSpeed <;>
  cases hl : s0.LightningTrailActive <;> cases he : s0.bEffectsActive <;>
  simp only [hL, hE, hl, he, if_true, if_false, decide_True, decide_False, Bool.not_true,
    Bool.not_false, Bool.and_true, Bool.and_false, Bool.true_and, Bool.false_and,
    Bool.false_eq_true, ActivateSpeedEffects, DeactivateSpeedEffects, ActivateGhostTrail,
    DeactivateGhostTrail] at h2 <;>
  first
    | (have h4 := StartDistortionEffect_effectFlags h2
       rw [h4]; simp [effectFlags, hL, hE, hl, he, hg1, hg2])
    | (cases h2
       simp [effectFlags, hL, hE, hl, he, hg1, hg2])

/-- In reachable states the ghost-trail and aura flags agree with `bEffectsActive`. -/
theorem TickReachable_sync {cfg : Config} {s : State} (h : TickReachable cfg s) :
    s.bGhostTrailActive = s.bEffectsActive ∧ s.SpeedAuraActive = s.bEffectsActive := by
  induction h with
  | constructed => exact ⟨rfl, rfl⟩
  | @beginPlay s _ ih =>
    have h := BeginPlay_effectFlags cfg s
    simp only [effectFlags, Prod.mk.injEq] at h
    obtain ⟨-, e1, e2, e3⟩ := h
    rw [e1, e2, e3]; exact ih
  | tick env _ ht ih =>
    have h := Tick_effectFlags ih ht
    simp only [effectFlags, Prod.mk.injEq] at h
    obtain ⟨-, e1, e2, e3⟩ := h
    rw [e1, e2, e3]; exact ⟨rfl, rfl⟩
  | timer _ ht ih =>
    have h := fireDistortionTimer_effectFlags ht
    simp only [effectFlags, Prod.mk.injEq] at h
    obtain ⟨-, e1, e2, e3⟩ := h
    rw [e1, e2, e3]; exact ih

/-- C7. Effects are driven by current velocity: in every state reached from the constructed
state by `BeginPlay`, `Tick` and timer callbacks, whatever the flags are there, a `Tick` with
velocity magnitude `v` that returns leaves the lightning trail component active exactly when
`v > LightningActivationSpeed`, and `bEffectsActive`, `bGhostTrailActive` and the speed-aura
component's active flag true exactly when `v > EffectActivationSpeed`. -/
theorem Tick_effects_follow_velocity (cfg : Config) (s : State) (hr : TickReachable cfg s)
    (env : TickEnv) (s' : State) (h : Tick cfg env s = some s') :
    (s'.LightningTrailActive = true ↔ env.VelocitySize > cfg.LightningActivationSpeed) ∧
    (s'.bEffectsActive = true ↔ env.VelocitySize > cfg.EffectActivationSpeed) ∧
    (s'.bGhostTrailActive = true ↔ env.VelocitySize > cfg.EffectActivationSpeed) ∧
    (s'.SpeedAuraActive = true ↔ env.VelocitySize > cfg.EffectActivationSpeed) := by
  have hf := Tick_effectFlags (TickReachable_sync hr) h
  simp only [effectFlags, Prod.mk.injEq] at hf
  obtain ⟨e0, e1, e2, e3⟩ := hf
  rw [e0, e1, e2, e3]
  exact ⟨decide_eq_true_iff, decide_eq_true_iff, decide_eq_true_iff, decide_eq_true_iff⟩

/-- C7 exercised: the first tick after `BeginPlay`, at speed 900. -/
theorem Tick_effects_follow_velocity_witness :
    TickReachable distortionConfig (BeginPlay distortionConfig constructedState) ∧
    Tick distortionConfig fastTick (BeginPlay distortionConfig constructedState)
      = some afterFastTick ∧
    ((afterFastTick.LightningTrailActive = true ↔
        fastTick.VelocitySize > distortionConfig.LightningActivationSpeed) ∧
     (afterFastTick.bEffectsActive = true ↔
        fastTick.VelocitySize > distortionConfig.EffectActivationSpeed) ∧
     (afterFastTick.bGhostTrailActive = true ↔
        fastTick.VelocitySize > distortionConfig.EffectActivationSpeed) ∧
     (afterFastTick.SpeedAuraActive = true ↔
        fastTick.VelocitySize > distortionConfig.EffectActivationSpeed)) := by
  have hr : TickReachable distortionConfig (BeginPlay distortionConfig constructedState) :=
    TickReachable.beginPlay TickReachable.constructed
  have ht : Tick distortionConfig fastTick (BeginPlay distortionConfig constructedState)
      = some afterFastTick := by
    norm_num [Tick, fastTick, BeginPlay, distortionConfig, constructedConfig, constructedState,
      IncreaseSpeed, FMath.Clamp, ActivateSpeedEffects, ActivateGhostTrail,
      StartDistortionEffect, UpdateGhostTrail, SpawnGhost, allPresent, NewGhost,
      updateGhostsLoop_eq, updateGhost, ghostOf, afterFastTick]
  exact ⟨hr, ht, Tick_effects_follow_velocity distortionConfig _ hr fastTick afterFastTick ht⟩

/-! ### C8: a wall-run starts on a ceiling -/

/-- C8, the code at the failing input. For a hit whose normal points straight down the dot
product with the up vector is `-1`, below `1/10`, so `CheckForWall` calls `StartWallRun`: the
character is wall-running with gravity off and a zero wall-run direction. The same happens
for an overhang with normal `(3/5, 0, -4/5)`. -/
theorem CheckForWall_starts_wall_run_on_ceiling :
    FVector.DotProduct ceilingHit.Normal FVector.UpVector = -1 ∧
    ¬ (|FVector.DotProduct ceilingHit.Normal FVector.UpVector| < 1 / 10) ∧
    CheckForWall constructedConfig (some ceilingHit) constructedState
      = StartWallRun constructedConfig ceilingHit.Normal constructedState ∧
    (CheckForWall constructedConfig (some ceilingHit) constructedState).bIsWallRunning = true ∧
    (CheckForWall constructedConfig (some ceilingHit) constructedState).GravityScale = 0 ∧
    (CheckForWall constructedConfig (some ceilingHit) constructedState).MovementInput
      = [(⟨0, 0, 0⟩, 6 / 5)] ∧
    FVector.DotProduct overhangHit.Normal FVector.UpVector = -4 / 5 ∧
    (CheckForWall constructedConfig (some overhangHit) constructedState).bIsWallRunning = true := by
  norm_num [CheckForWall, StartWallRun, ceilingHit, overhangHit, FVector.DotProduct,
    FVector.UpVector, FVector.CrossProduct, constructedConfig, constructedState]

/-! ### C9: wall-run gravity -/

/-- `StartWallRun` keeps the gravity invariant. -/
theorem StartWallRun_gravity (cfg : Config) (n : FVector) (s : State)
    (h : (s.bIsWallRunning = true → s.GravityScale = cfg.WallRunGravityScale) ∧
      (s.bIsWallRunning = false → s.GravityScale = 1)) :
    ((StartWallRun cfg n s).bIsWallRunning = true →
        (StartWallRun cfg n s).GravityScale = cfg.WallRunGravityScale) ∧
    ((StartWallRun cfg n s).bIsWallRunning = false → (StartWallRun cfg n s).GravityScale = 1) := by
  unfold StartWallRun
  cases hb : s.bIsWallRunning
  · simp
  · simpa [hb] using h

/-- C9. Wall-run gravity invariant: in every state reached from the constructed state by
`CheckForWall`, `StartWallRun` and `StopWallRun`, the movement component's `GravityScale` is
`WallRunGravityScale` when `bIsWallRunning` is true and `1` when it is false. -/
theorem wall_run_gravity_invariant (cfg : Config) (s : State) (h : WallReachable cfg s) :
    (s.bIsWallRunning = true → s.GravityScale = cfg.WallRunGravityScale) ∧
    (s.bIsWallRunning = false → s.GravityScale = 1) := by
  induction h with
  | constructed => simp [constructedState]
  | @check s hit _ ih =>
    unfold CheckForWall
    cases hit with
    | none =>
      dsimp only
      split_ifs
      · simp [StopWallRun]
      · exact ih
    | some hr =>
      dsimp only
      split_ifs
      · exact StartWallRun_gravity cfg _ s ih
      · exact ih
  | @start s n _ ih => exact StartWallRun_gravity cfg n s ih
  | stop _ _ => simp [StopWallRun]

/-- C9 exercised: a wall hit from the constructed state starts a wall-run with gravity off. -/
theorem wall_run_gravity_invariant_witness :
    WallReachable constructedConfig (CheckForWall constructedConfig (some wallHit) constructedState) ∧
    (CheckForWall constructedConfig (some wallHit) constructedState).bIsWallRunning = true ∧
    (CheckForWall constructedConfig (some wallHit) constructedState).GravityScale = 0 := by
  have hr : WallReachable constructedConfig
      (CheckForWall constructedConfig (some wallHit) constructedState) :=
    WallReachable.check _ WallReachable.constructed
  have hb : (CheckForWall constructedConfig (some wallHit) constructedState).bIsWallRunning
      = true := by
    norm_num [CheckForWall, StartWallRun, wallHit, FVector.DotProduct, FVector.UpVector,
      constructedState]
  exact ⟨hr, hb, (wall_run_gravity_invariant constructedConfig _ hr).1 hb⟩

/-! ### C10: the distortion fade -/

end AMySpeedsterCharacter

namespace Binary32

/-- With enough fuel the significand left after dropping `dropBits` bits fits in 24 bits, and
when bits are dropped it has exactly 24 bits. -/
theorem dropBits_spec : ∀ (fuel n : Nat), n ≤ fuel →
    n / 2 ^ dropBits fuel n < 2 ^ 24 ∧
    (0 < dropBits fuel n → 2 ^ 23 ≤ n / 2 ^ dropBits fuel n) := by
  intro fuel
  induction fuel with
  | zero =>
    intro n hn
    have h0 : n = 0 := Nat.le_zero.mp hn
    subst h0
    simp [dropBits]
  | succ fuel ih =>
    intro n hn
    unfold dropBits
    by_cases hlt : n < 2 ^ 24
    · rw [if_pos hlt, pow_zero, Nat.div_one]
      exact ⟨hlt, fun h => absurd h (lt_irrefl 0)⟩
    · rw [if_neg hlt]
      have hge : 2 ^ 24 ≤ n := Nat.le_of_not_lt hlt
      have hhalf : n / 2 ≤ fuel := by omega
      obtain ⟨h1, h2⟩ := ih (n / 2) hhalf
      have hdiv : n / 2 ^ (dropBits fuel (n / 2) + 1) = n / 2 / 2 ^ dropBits fuel (n / 2) := by
        rw [pow_succ, Nat.mul_comm, Nat.div_div_eq_div_mul]
      rw [hdiv]
      refine ⟨h1, fun _ => ?_⟩
      by_cases hd : 0 < dropBits fuel (n / 2)
      · exact h2 hd
      · have hd0 : dropBits fuel (n / 2) = 0 := by omega
        rw [hd0, pow_zero, Nat.div_one]
        omega

/-- The rounded value is the significand `q` or `q + 1` on the grid of spacing `2^s`. -/
theorem roundUnits_cases (n : Nat) :
    roundUnits n = n / 2 ^ dropBits n n * 2 ^ dropBits n n ∨
    roundUnits n = (n / 2 ^ dropBits n n + 1) * 2 ^ dropBits n n := by
  unfold roundUnits
  dsimp only
  split_ifs
  · exact Or.inl rfl
  · exact Or.inr rfl
  · exact Or.inl rfl
  · exact Or.inr rfl

/-- Rounding never goes below the grid point under the exact value. -/
theorem floor_le_roundUnits (n : Nat) :
    n / 2 ^ dropBits n n * 2 ^ dropBits n n ≤ roundUnits n := by
  rcases roundUnits_cases n with h | h
  · rw [h]
  · rw [h]; exact Nat.mul_le_mul_right _ (Nat.le_succ _)

/-- A value `Q * 2^t` with a significand of at most 24 bits. -/
theorem roundUnits_representable (n : Nat) :
    ∃ Q t, roundUnits n = Q * 2 ^ t ∧ Q ≤ 2 ^ 24 := by
  have hq := (dropBits_spec n n (le_refl n)).1
  rcases roundUnits_cases n with h | h
  · exact ⟨_, _, h, hq.le⟩
  · exact ⟨_, _, h, hq⟩

/-- A binary32 value not above the exact value `n` is not above the grid point under `n`,
hence not above the rounded `n`. -/
theorem le_roundUnits_of_le {m n Q t : Nat} (hm : m = Q * 2 ^ t) (hQ : Q ≤ 2 ^ 24)
    (hmn : m ≤ n) : m ≤ roundUnits n := by
  refine le_trans ?_ (floor_le_roundUnits n)
  obtain ⟨-, h2⟩ := dropBits_spec n n (le_refl n)
  generalize dropBits n n = s at h2 ⊢
  by_cases hts : s ≤ t
  · -- `m` is on the grid of spacing `2^s`
    have hdvd : 2 ^ s ∣ m := by
      rw [hm]
      exact Dvd.dvd.mul_left (pow_dvd_pow 2 hts) Q
    obtain ⟨c, hc⟩ := hdvd
    rw [hc, Nat.mul_comm]
    apply Nat.mul_le_mul_right
    rw [Nat.le_div_iff_mul_le (Nat.two_pow_pos s)]
    rw [Nat.mul_comm, ← hc]
    exact hmn
  · -- `m` is below the binade of `n`
    have hlt : t < s := Nat.lt_of_not_le hts
    have hs : 0 < s := by omega
    have hq := h2 hs
    calc m = Q * 2 ^ t := hm
      _ ≤ 2 ^ 24 * 2 ^ t := Nat.mul_le_mul_right _ hQ
      _ = 2 ^ (24 + t) := by rw [pow_add]
      _ ≤ 2 ^ (23 + s) := Nat.pow_le_pow_right (by norm_num) (by omega)
      _ = 2 ^ 23 * 2 ^ s := by rw [pow_add]
      _ ≤ n / 2 ^ s * 2 ^ s := Nat.mul_le_mul_right _ hq

/-- The rounded value is within half a grid spacing of the exact value. -/
theorem roundUnits_nearest (n : Nat) :
    2 * roundUnits n ≤ 2 * n + 2 ^ dropBits n n ∧
    2 * n ≤ 2 * roundUnits n + 2 ^ dropBits n n := by
  have hdm : n / 2 ^ dropBits n n * 2 ^ dropBits n n + n % 2 ^ dropBits n n = n := by
    rw [Nat.mul_comm]; exact Nat.div_add_mod n _
  have hr : n % 2 ^ dropBits n n < 2 ^ dropBits n n := Nat.mod_lt _ (Nat.two_pow_pos _)
  have hsucc : (n / 2 ^ dropBits n n + 1) * 2 ^ dropBits n n
      = n / 2 ^ dropBits n n * 2 ^ dropBits n n + 2 ^ dropBits n n := by
    rw [Nat.add_mul, Nat.one_mul]
  unfold roundUnits
  dsimp only
  rw [hsucc]
  generalize n / 2 ^ dropBits n n * 2 ^ dropBits n n = a at hdm ⊢
  generalize n % 2 ^ dropBits n n = r at hdm hr ⊢
  generalize 2 ^ dropBits n n = p at hdm hr ⊢
  clear hsucc
  split_ifs <;> omega

set_option maxRecDepth 1000000 in
/-- At `262144 = 2^18` the spacing of binary32 values is `2^-5`, more than twice `0.01f`:
adding `0.01f` leaves the value unchanged. -/
theorem add_hundredth_absorbed :
    add ⟨2 ^ 18 * 2 ^ 149⟩ hundredth = ⟨2 ^ 18 * 2 ^ 149⟩ := by decide

end Binary32

namespace AMySpeedsterCharacter

/-- The literal `0.01f` is the binary32 value nearest to one hundredth: it is within half a
unit in the last place (`2^-31`) of it. -/
theorem hundredth_nearest :
    Binary32.hundredth.toRat = 10737418 / 2 ^ 30 ∧
    |Binary32.hundredth.toRat - 1 / 100| < 1 / 2 ^ 31 := by
  have h : Binary32.hundredth.toRat = 10737418 / 2 ^ 30 := by
    norm_num [Binary32.hundredth, Binary32.toRat]
  refine ⟨h, ?_⟩
  rw [h, abs_lt]
  constructor <;> norm_num

/-- The rational value is strictly monotone in the units. -/
theorem toRat_lt_toRat {x y : Binary32} (h : x.units < y.units) : x.toRat < y.toRat := by
  unfold Binary32.toRat
  apply div_lt_div_of_pos_right _ (by positivity)
  exact_mod_cast h

/-- The rational value is monotone in the units. -/
theorem toRat_le_toRat {x y : Binary32} (h : x.units ≤ y.units) : x.toRat ≤ y.toRat := by
  unfold Binary32.toRat
  apply div_le_div_of_nonneg_right _ (by positivity)
  exact_mod_cast h

/-- One callback more: the exact sum with `0.01f`, rounded. -/
theorem elapsedAfter_succ_units (k : Nat) :
    (elapsedAfter (k + 1)).units
      = Binary32.roundUnits ((elapsedAfter k).units + Binary32.hundredth.units) := by
  rw [elapsedAfter, Binary32.add]

/-- Every accumulated elapsed time is a binary32 value: `Q * 2^t` units with `Q ≤ 2^24`. -/
theorem elapsedAfter_representable (k : Nat) :
    ∃ Q t, (elapsedAfter k).units = Q * 2 ^ t ∧ Q ≤ 2 ^ 24 := by
  cases k with
  | zero => exact ⟨0, 0, rfl, Nat.zero_le _⟩
  | succ k =>
    rw [elapsedAfter_succ_units]
    exact Binary32.roundUnits_representable _

/-- One more addition of `0.01f` never lowers the accumulated elapsed time. -/
theorem elapsedAfter_le_succ (k : Nat) :
    (elapsedAfter k).units ≤ (elapsedAfter (k + 1)).units := by
  obtain ⟨Q, t, hm, hQ⟩ := elapsedAfter_representable k
  rw [elapsedAfter_succ_units]
  exact Binary32.le_roundUnits_of_le hm hQ (Nat.le_add_right _ _)

/-- The accumulated elapsed time is non-decreasing in the number of callbacks. -/
theorem elapsedAfter_mono {j k : Nat} (h : j ≤ k) :
    (elapsedAfter j).units ≤ (elapsedAfter k).units := by
  induction h with
  | refl => exact le_refl _
  | step _ ih => exact le_trans ih (elapsedAfter_le_succ _)

/-- After at least one callback the accumulated elapsed time is positive. -/
theorem elapsedAfter_pos {k : Nat} (h : 0 < k) : 0 < (elapsedAfter k).toRat := by
  have hc : Binary32.hundredth.units ≤ (elapsedAfter 1).units := by
    rw [elapsedAfter_succ_units]
    exact Binary32.le_roundUnits_of_le (Q := 10737418) (t := 119) rfl (by norm_num)
      (Nat.le_add_left _ _)
  have h0 : 0 < Binary32.hundredth.units := Nat.mul_pos (by norm_num) (Nat.two_pow_pos 119)
  have h3 : 0 < (elapsedAfter k).units :=
    lt_of_lt_of_le (lt_of_lt_of_le h0 hc) (elapsedAfter_mono (Nat.succ_le_of_lt h))
  have h4 : (0 : ℚ) < ((elapsedAfter k).units : ℚ) := by exact_mod_cast h3
  exact div_pos h4 (by norm_num)

/-- The callback below the duration: the curve is sampled at the normalised new elapsed time
and the value written to the material. -/
theorem UpdateDistortionEffect_running {cfg : Config} {curve : ℚ → ℚ} {s : State}
    {m : UMaterialInstanceDynamic} (hc : cfg.DistortionIntensityCurve = some curve)
    (hm : s.DynamicDistortionMaterial = some m)
    (hlt : ¬ ((Binary32.add s.DistortionEffectElapsedTime Binary32.hundredth).toRat
      ≥ cfg.DistortionEffectDuration)) :
    UpdateDistortionEffect cfg s = some { s with
      DistortionEffectElapsedTime := Binary32.add s.DistortionEffectElapsedTime Binary32.hundredth
      DynamicDistortionMaterial := some { m with
        DistortionStrength :=
          curve ((Binary32.add s.DistortionEffectElapsedTime Binary32.hundredth).toRat
            / cfg.DistortionEffectDuration) } } := by
  unfold UpdateDistortionEffect
  simp only [if_neg hlt, hc, hm]

/-- The callback at or past the duration: the timer is cleared, the strength zeroed and the
flag reset. -/
theorem UpdateDistortionEffect_stop {cfg : Config} {s : State}
    {m : UMaterialInstanceDynamic} (hm : s.DynamicDistortionMaterial = some m)
    (hge : (Binary32.add s.DistortionEffectElapsedTime Binary32.hundredth).toRat
      ≥ cfg.DistortionEffectDuration) :
    UpdateDistortionEffect cfg s = some { s with
      DistortionEffectElapsedTime := Binary32.add s.DistortionEffectElapsedTime Binary32.hundredth
      DistortionEffectTimerSet := false
      DynamicDistortionMaterial := some { m with DistortionStrength := 0 }
      bIsDistortionEffectActive := false } := by
  unfold UpdateDistortionEffect
  simp only [if_pos hge, hm]

/-- While the accumulated elapsed time stays below the duration, `k` timer firings leave the
effect running with that elapsed time and (for `k > 0`) the curve value written to the
material. -/
theorem distortionCallbacks_running (cfg : Config) (curve : ℚ → ℚ) (s0 : State)
    (m0 : UMaterialInstanceDynamic)
    (hc : cfg.DistortionIntensityCurve = some curve)
    (hm : s0.DynamicDistortionMaterial = some m0)
    (ht : s0.DistortionEffectTimerSet = true)
    (he : s0.DistortionEffectElapsedTime = Binary32.zero)
    (ha : s0.bIsDistortionEffectActive = true) :
    ∀ k : ℕ, (elapsedAfter k).toRat < cfg.DistortionEffectDuration →
      ∃ sk mk, distortionCallbacks cfg k s0 = some sk ∧
        sk.DistortionEffectElapsedTime = elapsedAfter k ∧
        sk.DistortionEffectTimerSet = true ∧ sk.bIsDistortionEffectActive = true ∧
        sk.DynamicDistortionMaterial = some mk ∧
        (0 < k → mk.DistortionStrength
          = curve ((elapsedAfter k).toRat / cfg.DistortionEffectDuration)) := by
  intro k
  induction k with
  | zero =>
    intro _
    exact ⟨s0, m0, rfl, he, ht, ha, hm, fun h => absurd h (lt_irrefl 0)⟩
  | succ k ih =>
    intro hk
    have hk' : (elapsedAfter k).toRat < cfg.DistortionEffectDuration :=
      lt_of_le_of_lt (toRat_le_toRat (elapsedAfter_le_succ k)) hk
    obtain ⟨sk, mk, hrun, hel, htm, hact, hmat, -⟩ := ih hk'
    have hadd : Binary32.add sk.DistortionEffectElapsedTime Binary32.hundredth
        = elapsedAfter (k + 1) := by
      rw [hel, elapsedAfter]
    have hnot : ¬ ((Binary32.add sk.DistortionEffectElapsedTime Binary32.hundredth).toRat
        ≥ cfg.DistortionEffectDuration) := by
      rw [hadd]; exact not_le.mpr hk
    have hfire : distortionCallbacks cfg (k + 1) s0 = UpdateDistortionEffect cfg sk := by
      show (distortionCallbacks cfg k s0).bind (fireDistortionTimer cfg) = _
      rw [hrun, Option.some_bind, fireDistortionTimer, if_pos htm]
    rw [hfire, UpdateDistortionEffect_running hc hmat hnot, hadd]
    exact ⟨_, _, rfl, rfl, htm, hact, rfl, fun _ => rfl⟩

/-- C10, amended. Timer-driven distortion fade: with a duration `D > 0`, the intensity curve
and the distortion material assigned and the effect inactive, `StartDistortionEffect` returns
a state `s0` with elapsed time zero, the flag set and the timer set. Write `e k` for the
`float` sum of `k` additions of `0.01f` (`elapsedAfter k`). From `s0`, for every `k > 0` with
`e k < D` the `k`-th timer callback leaves the elapsed time `e k`, samples the curve at
`e k / D`, which lies strictly between 0 and 1, and writes that value to `DistortionStrength`,
the effect staying active with the timer set; and the callback `k + 1` with `e k < D ≤ e (k+1)`
(the first whose accumulated time reaches `D`) writes `DistortionStrength = 0`, clears the
timer and resets the flag. While the flag is set, a further `StartDistortionEffect` returns
the state unchanged. -/
theorem distortion_fade_ends (cfg : Config) (curve : ℚ → ℚ) (m : UMaterialInstanceDynamic)
    (proj : Option ScreenProjection) (s : State)
    (hD : 0 < cfg.DistortionEffectDuration)
    (hc : cfg.DistortionIntensityCurve = some curve)
    (hm : s.DynamicDistortionMaterial = some m)
    (hI : s.bIsDistortionEffectActive = false) :
    ∃ s0, StartDistortionEffect proj s = some s0 ∧
      s0.DistortionEffectElapsedTime = Binary32.zero ∧ s0.bIsDistortionEffectActive = true ∧
      s0.DistortionEffectTimerSet = true ∧
      (∀ k : ℕ, 0 < k → (elapsedAfter k).toRat < cfg.DistortionEffectDuration →
        0 < (elapsedAfter k).toRat / cfg.DistortionEffectDuration ∧
        (elapsedAfter k).toRat / cfg.DistortionEffectDuration < 1 ∧
        ∃ sk mk, distortionCallbacks cfg k s0 = some sk ∧
          sk.DistortionEffectElapsedTime = elapsedAfter k ∧
          sk.DynamicDistortionMaterial = some mk ∧
          mk.DistortionStrength
            = curve ((elapsedAfter k).toRat / cfg.DistortionEffectDuration) ∧
          sk.bIsDistortionEffectActive = true ∧ sk.DistortionEffectTimerSet = true) ∧
      (∀ k : ℕ, (elapsedAfter k).toRat < cfg.DistortionEffectDuration →
        cfg.DistortionEffectDuration ≤ (elapsedAfter (k + 1)).toRat →
        ∃ sk mk, distortionCallbacks cfg (k + 1) s0 = some sk ∧
          sk.DynamicDistortionMaterial = some mk ∧ mk.DistortionStrength = 0 ∧
          sk.bIsDistortionEffectActive = false ∧ sk.DistortionEffectTimerSet = false) ∧
      (∀ (proj' : Option ScreenProjection) (t : State), t.bIsDistortionEffectActive = true →
        StartDistortionEffect proj' t = some t) := by
  have hstart : ∃ s0 m0, StartDistortionEffect proj s = some s0 ∧
      s0.DistortionEffectElapsedTime = Binary32.zero ∧ s0.bIsDistortionEffectActive = true ∧
      s0.DistortionEffectTimerSet = true ∧ s0.DynamicDistortionMaterial = some m0 := by
    unfold StartDistortionEffect
    rw [hI]
    cases proj with
    | none =>
      simp only [Bool.false_eq_true, if_false, Option.map_some']
      exact ⟨_, m, rfl, rfl, rfl, rfl, hm⟩
    | some p =>
      simp only [Bool.false_eq_true, if_false, hm, Option.map_some']
      exact ⟨_, _, rfl, rfl, rfl, rfl, rfl⟩
  obtain ⟨s0, m0, hs0, he0, ha0, ht0, hm0⟩ := hstart
  have hrun := distortionCallbacks_running cfg curve s0 m0 hc hm0 ht0 he0 ha0
  refine ⟨s0, hs0, he0, ha0, ht0, ?_, ?_, ?_⟩
  · intro k hk0 hk
    obtain ⟨sk, mk, h1, h2, h3, h4, h5, h6⟩ := hrun k hk
    exact ⟨div_pos (elapsedAfter_pos hk0) hD, (div_lt_one hD).mpr hk, sk, mk, h1, h2, h5,
      h6 hk0, h4, h3⟩
  · intro k hk hge
    obtain ⟨sk, mk, h1, h2, h3, h4, h5, -⟩ := hrun k hk
    have hadd : Binary32.add sk.DistortionEffectElapsedTime Binary32.hundredth
        = elapsedAfter (k + 1) := by
      rw [h2, elapsedAfter]
    have hge' : (Binary32.add sk.DistortionEffectElapsedTime Binary32.hundredth).toRat
        ≥ cfg.DistortionEffectDuration := by
      rw [hadd]; exact hge
    have hfire : distortionCallbacks cfg (k + 1) s0 = UpdateDistortionEffect cfg sk := by
      show (distortionCallbacks cfg k s0).bind (fireDistortionTimer cfg) = _
      rw [h1, Option.some_bind, fireDistortionTimer, if_pos h3]
    rw [hfire, UpdateDistortionEffect_stop h5 hge']
    exact ⟨_, _, rfl, rfl, rfl, rfl, rfl⟩
  · intro proj' t ht
    unfold StartDistortionEffect
    rw [if_pos ht]

set_option maxRecDepth 1000000 in
/-- The accumulated elapsed time after 25, 50 and 51 callbacks, in units of `2^-149`. -/
theorem elapsedAfter_values :
    (elapsedAfter 25).units = 8388609 * 2 ^ 124 ∧
    (elapsedAfter 50).units = 16777209 * 2 ^ 124 ∧
    (elapsedAfter 51).units = 8556377 * 2 ^ 125 := by decide

/-- After 50 additions of `0.01f` the elapsed time is `16777209 / 2^25`, about `0.49999979`,
still below one half; after 51 it is above. -/
theorem elapsedAfter_50_lt_half :
    (elapsedAfter 50).toRat = 16777209 / 2 ^ 25 ∧ (elapsedAfter 50).toRat < 1 / 2 ∧
    1 / 2 ≤ (elapsedAfter 51).toRat := by
  have h50 : (elapsedAfter 50).toRat = 16777209 / 2 ^ 25 := by
    unfold Binary32.toRat
    rw [elapsedAfter_values.2.1]
    norm_num
  have h51 : (elapsedAfter 51).toRat = 8556377 / 2 ^ 24 := by
    unfold Binary32.toRat
    rw [elapsedAfter_values.2.2]
    norm_num
  refine ⟨h50, ?_, ?_⟩
  · rw [h50]; norm_num
  · rw [h51]; norm_num

/-- C10, counterexample. With the constructor's duration of half a second and the curve and
material assigned, callback 50 has `50 * 0.01 ≥ D` but does not end the effect: the `float`
sum of 50 additions of `0.01f` is still below `D`, so after 50 callbacks the flag and the
timer are still set. And with the constructor's own assets (curve and material null), on an
inactive effect with `D > 0`, `StartDistortionEffect` returns and the first callback does not
sample anything: it is a null access. -/
theorem fade_not_ended_at_callback_50 :
    (0 < distortionConfig.DistortionEffectDuration ∧
      distortionConfig.DistortionEffectDuration ≤ (50 : ℚ) * (1 / 100) ∧
      StartDistortionEffect none (BeginPlay distortionConfig constructedState)
        = some fadeStart ∧
      (distortionCallbacks distortionConfig 50 fadeStart).map
          (fun s => (s.bIsDistortionEffectActive, s.DistortionEffectTimerSet,
            s.DistortionEffectElapsedTime))
        = some (true, true, elapsedAfter 50) ∧
      (elapsedAfter 50).toRat < distortionConfig.DistortionEffectDuration) ∧
    (0 < constructedConfig.DistortionEffectDuration ∧
      (BeginPlay constructedConfig constructedState).bIsDistortionEffectActive = false ∧
      (StartDistortionEffect none (BeginPlay constructedConfig constructedState)).isSome
        = true ∧
      (StartDistortionEffect none (BeginPlay constructedConfig constructedState)).bind
          (distortionCallbacks constructedConfig 1) = none) := by
  have hD : distortionConfig.DistortionEffectDuration = 1 / 2 := rfl
  have hlt : (elapsedAfter 50).toRat < distortionConfig.DistortionEffectDuration := by
    rw [hD]; exact elapsedAfter_50_lt_half.2.1
  refine ⟨⟨by rw [hD]; norm_num, by rw [hD]; norm_num, rfl, ?_, hlt⟩, ?_⟩
  · obtain ⟨sk, mk, h1, h2, h3, h4, -, -⟩ :=
      distortionCallbacks_running distortionConfig (fun t => 1 - t) fadeStart
        ⟨(0, 0, 0, 0), 0⟩ rfl rfl rfl rfl rfl 50 hlt
    rw [h1, Option.map_some', h2, h3, h4]
  · refine ⟨by norm_num [constructedConfig], rfl, rfl, ?_⟩
    have hs : StartDistortionEffect none (BeginPlay constructedConfig constructedState)
        = some { BeginPlay constructedConfig constructedState with
            bIsDistortionEffectActive := true
            DistortionEffectElapsedTime := Binary32.zero
            DistortionEffectTimerSet := true } := rfl
    rw [hs, Option.some_bind]
    show (some _ : Option State).bind (fireDistortionTimer constructedConfig) = none
    rw [Option.some_bind, fireDistortionTimer, if_pos rfl, UpdateDistortionEffect]
    split_ifs <;> rfl

/-- C10 amended, exercised with the constructor's duration of half a second and the curve
`1 - t`: the 25th callback writes `1 - (8388609 / 2^25) / (1/2)`, and the first callback whose
accumulated time reaches the duration, the 51st, ends the effect. -/
theorem distortion_fade_ends_witness :
    0 < distortionConfig.DistortionEffectDuration ∧
    ∃ s0 s25 m25 s51 m51,
      StartDistortionEffect none (BeginPlay distortionConfig constructedState) = some s0 ∧
      distortionCallbacks distortionConfig 25 s0 = some s25 ∧
      s25.DynamicDistortionMaterial = some m25 ∧
      m25.DistortionStrength = 8388607 / 16777216 ∧
      s25.bIsDistortionEffectActive = true ∧
      distortionCallbacks distortionConfig 51 s0 = some s51 ∧
      s51.DynamicDistortionMaterial = some m51 ∧ m51.DistortionStrength = 0 ∧
      s51.bIsDistortionEffectActive = false ∧ s51.DistortionEffectTimerSet = false := by
  have hDv : distortionConfig.DistortionEffectDuration = 1 / 2 := rfl
  have hD : 0 < distortionConfig.DistortionEffectDuration := by rw [hDv]; norm_num
  have h25 : (elapsedAfter 25).toRat = 8388609 / 2 ^ 25 := by
    unfold Binary32.toRat
    rw [elapsedAfter_values.1]
    norm_num
  obtain ⟨s0, hs0, -, -, -, hrun, hstop, -⟩ :=
    distortion_fade_ends distortionConfig (fun t => 1 - t) ⟨(0, 0, 0, 0), 0⟩ none
      (BeginPlay distortionConfig constructedState) hD rfl rfl rfl
  obtain ⟨-, -, s25, m25, hc25, -, hm25, hv25, ha25, -⟩ :=
    hrun 25 (by norm_num) (by rw [hDv, h25]; norm_num)
  obtain ⟨s51, m51, hc51, hm51, hv51, ha51, ht51⟩ :=
    hstop 50 (by rw [hDv]; exact elapsedAfter_50_lt_half.2.1)
      (by rw [hDv]; exact elapsedAfter_50_lt_half.2.2)
  refine ⟨hD, s0, s25, m25, s51, m51, hs0, hc25, hm25, ?_, ha25, hc51, hm51, hv51, ha51, ht51⟩
  rw [hv25, hDv, h25]
  norm_num

/-! ### C11: ghosts fade and expire -/

/-- `FMath::Clamp` into `[0, 1]` is monotone in its first argument. -/
theorem Clamp_unit_mono {X Y : ℚ} (h : X ≤ Y) : FMath.Clamp X 0 1 ≤ FMath.Clamp Y 0 1 := by
  rw [Clamp_eq_max_min X 0 1 zero_le_one, Clamp_eq_max_min Y 0 1 zero_le_one]
  exact max_le_max (le_refl _) (min_le_min h (le_refl _))

/-- `FMath::Clamp` into `[0, 1]` lands in `[0, 1]`. -/
theorem Clamp_unit_range (X : ℚ) : 0 ≤ FMath.Clamp X 0 1 ∧ FMath.Clamp X 0 1 ≤ 1 := by
  rw [Clamp_eq_max_min X 0 1 zero_le_one]
  exact ⟨le_max_left _ _, max_le zero_le_one (min_le_right _ _)⟩

/-- `FMath::Clamp` into `[0, 1]` of a positive value is positive. -/
theorem Clamp_unit_pos {X : ℚ} (h : 0 < X) : 0 < FMath.Clamp X 0 1 := by
  rw [Clamp_eq_max_min X 0 1 zero_le_one]
  exact lt_max_of_lt_right (lt_min h zero_lt_one)

/-- The array the update loop of a returning `UpdateGhostTrail` runs on is the array before
the call, or that array with the spawned record appended, or the latter without index 0; and
the array after the call is that array aged, without the records that reached the lifetime. -/
theorem UpdateGhostTrail_Ghosts {cfg : Config} {dt : ℚ} {env : SpawnEnv} {s s' : State}
    (h : UpdateGhostTrail cfg dt env s = some s') :
    ∃ before : List FGhostTrailData,
      (before = s.Ghosts ∨ before = s.Ghosts ++ [NewGhost env s] ∨
        before = (s.Ghosts ++ [NewGhost env s]).tail) ∧
      s'.Ghosts = (before.map (updateGhost cfg dt)).filter
        (fun g => decide (g.ElapsedTime < cfg.GhostLifetime)) := by
  obtain ⟨s1, h1, rfl⟩ := UpdateGhostTrail_eq_some h
  refine ⟨s1.Ghosts, ?_, rfl⟩
  rcases h1 with rfl | ⟨s0, h0, rfl⟩
  · exact Or.inl rfl
  · rcases SpawnGhost_eq_some h0 with ⟨-, rfl⟩ | ⟨-, -, -, -, rfl⟩
    · exact Or.inl rfl
    · have hE : NewGhost env { s with GhostSpawnTimer := s.GhostSpawnTimer + dt }
          = NewGhost env s := rfl
      dsimp only
      rw [hE]
      split_ifs
      · right; right
        cases s.Ghosts ++ [NewGhost env s] <;> rfl
      · exact Or.inr (Or.inl rfl)

/-- The records `UpdateGhostTrail` leaves are the aged versions, still below the lifetime, of
records of the array extended by the record a spawn would append. -/
theorem mem_Ghosts_of_UpdateGhostTrail {cfg : Config} {dt : ℚ} {env : SpawnEnv} {s s' : State}
    (h : UpdateGhostTrail cfg dt env s = some s') {g' : FGhostTrailData} (hg : g' ∈ s'.Ghosts) :
    g'.ElapsedTime < cfg.GhostLifetime ∧
    ∃ g ∈ s.Ghosts ++ [NewGhost env s], g' = updateGhost cfg dt g := by
  obtain ⟨before, hb, hs'⟩ := UpdateGhostTrail_Ghosts h
  have hsub : ∀ g ∈ before, g ∈ s.Ghosts ++ [NewGhost env s] := by
    rcases hb with rfl | rfl | rfl
    · intro g hg; exact List.mem_append_left _ hg
    · intro g hg; exact hg
    · intro g hg; exact List.mem_of_mem_tail hg
  rw [hs', List.mem_filter, List.mem_map] at hg
  obtain ⟨⟨g, hgm, rfl⟩, hlt⟩ := hg
  exact ⟨of_decide_eq_true hlt, g, hsub g hgm, rfl⟩

/-- After `UpdateGhostTrail` every stored opacity is the one written for the new age. -/
theorem UpdateGhostTrail_OpacityTracksAge {cfg : Config} {dt : ℚ} {env : SpawnEnv} {s s' : State}
    (h : UpdateGhostTrail cfg dt env s = some s') : OpacityTracksAge cfg s' := by
  intro g' hg' o ho
  obtain ⟨-, g, -, rfl⟩ := mem_Ghosts_of_UpdateGhostTrail h hg'
  simp only [updateGhost, Option.map_eq_some'] at ho
  obtain ⟨_, -, rfl⟩ := ho
  rfl

/-- When the stored opacities match the ages, an update with a non-negative `DeltaTime`
leaves no ghost more opaque than its record was before the call. -/
theorem UpdateGhostTrail_opacity_le {cfg : Config} {dt : ℚ} {env : SpawnEnv} {s s' : State}
    (hL : 0 < cfg.GhostLifetime) (hdt : 0 ≤ dt) (hinv : OpacityTracksAge cfg s)
    (h : UpdateGhostTrail cfg dt env s = some s') :
    ∀ g' ∈ s'.Ghosts, ∃ g, (g ∈ s.Ghosts ∨ g = NewGhost env s) ∧
      g'.GhostMeshComponent.Id = g.GhostMeshComponent.Id ∧
      g'.ElapsedTime = g.ElapsedTime + dt ∧
      g'.GhostMeshComponent.GhostOpacity.isSome = g.GhostMeshComponent.GhostOpacity.isSome ∧
      ∀ o o', g.GhostMeshComponent.GhostOpacity = some o →
        g'.GhostMeshComponent.GhostOpacity = some o' → o' ≤ o := by
  intro g' hg'
  obtain ⟨-, g, hg, rfl⟩ := mem_Ghosts_of_UpdateGhostTrail h hg'
  have hmem : g ∈ s.Ghosts ∨ g = NewGhost env s := by
    rwa [List.mem_append, List.mem_singleton] at hg
  have hO : (updateGhost cfg dt g).GhostMeshComponent.GhostOpacity
      = g.GhostMeshComponent.GhostOpacity.map fun _ =>
          FMath.Clamp (1 - (g.ElapsedTime + dt) / cfg.GhostLifetime) 0 1 := rfl
  refine ⟨g, hmem, rfl, rfl, ?_, ?_⟩
  · rw [hO]; cases g.GhostMeshComponent.GhostOpacity <;> rfl
  · intro o o' ho ho'
    rw [hO, ho] at ho'
    have ho'' := Option.some.inj ho'
    subst ho''
    rcases hmem with hgs | rfl
    · rw [hinv g hgs o ho]
      apply Clamp_unit_mono
      have : g.ElapsedTime / cfg.GhostLifetime ≤ (g.ElapsedTime + dt) / cfg.GhostLifetime :=
        div_le_div_of_nonneg_right (by linarith) hL.le
      linarith
    · have h1 : o = 1 := by
        simp only [NewGhost] at ho
        split_ifs at ho
        · exact (Option.some.inj ho).symm
      rw [h1]
      exact (Clamp_unit_range _).2

/-- C11. Ghosts fade and expire: with `GhostLifetime > 0`, after an `UpdateGhostTrail` that
returns, from any state and for any `DeltaTime`, every ghost still in `Ghosts` has
`ElapsedTime < GhostLifetime`; the opacity on its dynamic material (when it has one) is
`clamp(1 - ElapsedTime / GhostLifetime, 0, 1)` of its updated `ElapsedTime`, strictly positive
and at most 1; and it is the aged version (`ElapsedTime` advanced by `DeltaTime`) of a record
that was in the array or was spawned by this call. The array after the call is the array the
loop ran on (the old array, possibly with the spawned record appended and index 0 evicted),
aged, without exactly the records whose updated `ElapsedTime` reached `GhostLifetime`. And
from one update to the next the opacity never increases: after any later `UpdateGhostTrail`
with `DeltaTime ≥ 0` on the same array, every ghost is the aged version of a ghost of this
update (or newly spawned) and its opacity is not above the opacity that ghost had. -/
theorem UpdateGhostTrail_fades_and_expires (cfg : Config) (hL : 0 < cfg.GhostLifetime)
    (DeltaTime : ℚ) (env : SpawnEnv) (s s' : State)
    (h : UpdateGhostTrail cfg DeltaTime env s = some s') :
    (∀ g' ∈ s'.Ghosts,
      g'.ElapsedTime < cfg.GhostLifetime ∧
      (∀ o', g'.GhostMeshComponent.GhostOpacity = some o' →
        o' = FMath.Clamp (1 - g'.ElapsedTime / cfg.GhostLifetime) 0 1 ∧ 0 < o' ∧ o' ≤ 1) ∧
      ∃ g, (g ∈ s.Ghosts ∨ g = NewGhost env s) ∧
        g'.GhostMeshComponent.Id = g.GhostMeshComponent.Id ∧
        g'.ElapsedTime = g.ElapsedTime + DeltaTime ∧
        g'.GhostMeshComponent.GhostOpacity.isSome = g.GhostMeshComponent.GhostOpacity.isSome) ∧
    (∃ before : List FGhostTrailData,
      (before = s.Ghosts ∨ before = s.Ghosts ++ [NewGhost env s] ∨
        before = (s.Ghosts ++ [NewGhost env s]).tail) ∧
      s'.Ghosts = (before.map (updateGhost cfg DeltaTime)).filter
        (fun g => decide (g.ElapsedTime < cfg.GhostLifetime))) ∧
    (∀ (DeltaTime2 : ℚ) (env2 : SpawnEnv) (t s'' : State), 0 ≤ DeltaTime2 →
      t.Ghosts = s'.Ghosts → UpdateGhostTrail cfg DeltaTime2 env2 t = some s'' →
      ∀ g'' ∈ s''.Ghosts, ∃ g', (g' ∈ s'.Ghosts ∨ g' = NewGhost env2 t) ∧
        g''.GhostMeshComponent.Id = g'.GhostMeshComponent.Id ∧
        g''.ElapsedTime = g'.ElapsedTime + DeltaTime2 ∧
        ∀ o' o'', g'.GhostMeshComponent.GhostOpacity = some o' →
          g''.GhostMeshComponent.GhostOpacity = some o'' → o'' ≤ o') := by
  refine ⟨?_, UpdateGhostTrail_Ghosts h, ?_⟩
  · intro g' hg'
    obtain ⟨hlt, g, hg, rfl⟩ := mem_Ghosts_of_UpdateGhostTrail h hg'
    have hmem : g ∈ s.Ghosts ∨ g = NewGhost env s := by
      rwa [List.mem_append, List.mem_singleton] at hg
    have hE : (updateGhost cfg DeltaTime g).ElapsedTime = g.ElapsedTime + DeltaTime := rfl
    have hO : (updateGhost cfg DeltaTime g).GhostMeshComponent.GhostOpacity
        = g.GhostMeshComponent.GhostOpacity.map fun _ =>
            FMath.Clamp (1 - (g.ElapsedTime + DeltaTime) / cfg.GhostLifetime) 0 1 := rfl
    have hpos : 0 < 1 - (g.ElapsedTime + DeltaTime) / cfg.GhostLifetime := by
      rw [hE] at hlt
      have := (div_lt_one hL).mpr hlt
      linarith
    refine ⟨hlt, ?_, g, hmem, rfl, hE, ?_⟩
    · intro o' ho'
      rw [hO, Option.map_eq_some'] at ho'
      obtain ⟨_, -, rfl⟩ := ho'
      exact ⟨by rw [hE], Clamp_unit_pos hpos, (Clamp_unit_range _).2⟩
    · rw [hO]; cases g.GhostMeshComponent.GhostOpacity <;> rfl
  · intro dt2 env2 t s'' hdt2 hG h2 g'' hg''
    have hinv : OpacityTracksAge cfg t := by
      intro g hg
      rw [hG] at hg
      exact UpdateGhostTrail_OpacityTracksAge h g hg
    obtain ⟨g', hmem, hid, hage, -, hle⟩ := UpdateGhostTrail_opacity_le hL hdt2 hinv h2 g'' hg''
    rw [hG] at hmem
    exact ⟨g', hmem, hid, hage, hle⟩

/-- C11 exercised on the state a `Tick` left: an update of half a second removes the ghost of
that tick (it reaches the lifetime of 3/5) and leaves the newly spawned one with opacity 1/6;
the next update, of a twentieth of a second, lowers that opacity to 1/12. -/
theorem UpdateGhostTrail_fades_and_expires_witness :
    0 < distortionConfig.GhostLifetime ∧
    UpdateGhostTrail distortionConfig (1 / 2) allPresent afterFastTick = some afterExpiry ∧
    (∀ g' ∈ afterExpiry.Ghosts,
      g'.ElapsedTime < distortionConfig.GhostLifetime ∧
      ∀ o', g'.GhostMeshComponent.GhostOpacity = some o' →
        o' = FMath.Clamp (1 - g'.ElapsedTime / distortionConfig.GhostLifetime) 0 1 ∧
        0 < o' ∧ o' ≤ 1) ∧
    UpdateGhostTrail distortionConfig (1 / 20) allPresent afterExpiry = some afterFade ∧
    (∀ g'' ∈ afterFade.Ghosts,
      ∃ g', (g' ∈ afterExpiry.Ghosts ∨ g' = NewGhost allPresent afterExpiry) ∧
        g''.GhostMeshComponent.Id = g'.GhostMeshComponent.Id ∧
        g''.ElapsedTime = g'.ElapsedTime + 1 / 20 ∧
        ∀ o' o'', g'.GhostMeshComponent.GhostOpacity = some o' →
          g''.GhostMeshComponent.GhostOpacity = some o'' → o'' ≤ o') := by
  have hL : 0 < distortionConfig.GhostLifetime := by
    norm_num [distortionConfig, constructedConfig]
  have hu : UpdateGhostTrail distortionConfig (1 / 2) allPresent afterFastTick
      = some afterExpiry := by
    norm_num [UpdateGhostTrail, distortionConfig, constructedConfig, constructedState,
      SpawnGhost, allPresent, NewGhost, updateGhostsLoop_eq, updateGhost, ghostOf, FMath.Clamp,
      afterFastTick, afterExpiry]
  have hu2 : UpdateGhostTrail distortionConfig (1 / 20) allPresent afterExpiry
      = some afterFade := by
    norm_num [UpdateGhostTrail, distortionConfig, constructedConfig, constructedState,
      SpawnGhost, allPresent, NewGhost, updateGhostsLoop_eq, updateGhost, ghostOf, FMath.Clamp,
      afterFastTick, afterExpiry, afterFade]
  obtain ⟨hA, -, hD⟩ := UpdateGhostTrail_fades_and_expires distortionConfig hL (1 / 2)
    allPresent afterFastTick afterExpiry hu
  exact ⟨hL, hu, fun g' hg' => ⟨(hA g' hg').1, (hA g' hg').2.1⟩, hu2,
    hD (1 / 20) allPresent afterExpiry afterFade (by norm_num) rfl hu2⟩

end AMySpeedsterCharacter

end Speedster
